import Mathlib

/-
Verification of the conversation-extraction / notification pipeline of
`notify.py` (AI Task Notify).  The Python source is shallowly embedded:
JSON values become the inductive type `Json`, dynamic attribute errors
(calling `.get` on a non-dict, `.strip()` on a non-string, iterating a
non-iterable, slicing a non-subscriptable value, `int()` on a non-numeric
string) are modelled in the `Except String` monad, and I/O boundaries
(`os.environ`, the SMTP session, `sys.argv` / `stdin` JSON decoding,
`datetime.now()`) are passed in as explicit parameters.
-/

namespace AINotify

/-- JSON values as produced by Python `json.loads` (numbers restricted to
integers; no claim depends on float payloads). -/
inductive Json where
  | null : Json
  | bool : Bool → Json
  | num : Int → Json
  | str : String → Json
  | arr : List Json → Json
  | obj : List (String × Json) → Json

/-- One extracted conversation message, `{"role": ..., "text": ...}`. -/
structure Msg where
  role : String
  text : String
deriving DecidableEq, Repr

/-! ### String primitives modelling the Python `str` methods used -/

/-- Python `str.join` semantics: `sep.join(parts)`. -/
def joinSep (sep : String) : List String → String
  | [] => ""
  | [t] => t
  | t :: ts => t ++ sep ++ joinSep sep ts

/-- Characters removed by Python `str.strip()` (whitespace). -/
def isPySpace (c : Char) : Bool := c.isWhitespace

/-- Strip whitespace from both ends of a character list. -/
def trimChars (cs : List Char) : List Char :=
  ((cs.dropWhile isPySpace).reverse.dropWhile isPySpace).reverse

/-- Python `str.strip()`. -/
def pyStrip (s : String) : String := String.mk (trimChars s.data)

/-- Python `str.startswith`. -/
def pyStartsWith (s pre : String) : Bool := pre.data.isPrefixOf s.data

/-- Python `str.lower()` (ASCII case folding suffices here). -/
def pyLower (s : String) : String := String.mk (s.data.map Char.toLower)

/-- Auxiliary for `str.split(sep)` with a one-character separator:
split a character list at every occurrence of `sep`.  The result is
always non-empty (Python `"".split(",") == [""]`). -/
def splitOnCharAux (sep : Char) : List Char → List (List Char)
  | [] => [[]]
  | c :: cs =>
    match splitOnCharAux sep cs with
    | [] => [[c]]
    | l :: ls => if c = sep then [] :: l :: ls else (c :: l) :: ls

/-- Python `s.split(sep)` for a one-character separator. -/
def pySplitChar (sep : Char) (s : String) : List String :=
  (splitOnCharAux sep s.data).map String.mk

/-- Concatenation of string parts (the `html += part` accumulation). -/
def strConcat : List String → String
  | [] => ""
  | s :: ss => s ++ strConcat ss

/-- Is `pat` a contiguous substring of `s` (Python `pat in s`)?  Aux on
character lists. -/
def containsSubAux (pat : List Char) : List Char → Bool
  | [] => pat.isEmpty
  | c :: cs => pat.isPrefixOf (c :: cs) || containsSubAux pat cs

/-- Python `pat in s` substring test. -/
def containsSub (s pat : String) : Bool := containsSubAux pat.data s.data

/-! ### Python dynamic-typing primitives over `Json` -/

/-- `dict.get(key, default)` on a raw key/value list (first match; the
payloads considered have no duplicate keys). -/
def objGetD (kvs : List (String × Json)) (key : String) (dflt : Json) : Json :=
  match kvs.lookup key with
  | some v => v
  | none => dflt

/-- Python `x.get(key, default)`: raises `AttributeError` unless `x` is a
dict. -/
def pyGet (j : Json) (key : String) (dflt : Json) : Except String Json :=
  match j with
  | .obj kvs => .ok (objGetD kvs key dflt)
  | _ => .error "AttributeError: no attribute get"

/-- Total variant used where the source guards with `isinstance(x, dict)`
(non-dicts yield the default). -/
def jGetD (j : Json) (key : String) (dflt : Json) : Json :=
  match j with
  | .obj kvs => objGetD kvs key dflt
  | _ => dflt

/-- Elements produced by iterating a Python value: lists yield their
items, strings their one-character substrings, dicts their keys. -/
def iterElems (j : Json) : List Json :=
  match j with
  | .arr xs => xs
  | .str s => s.data.map (fun c => Json.str (String.mk [c]))
  | .obj kvs => kvs.map (fun kv => Json.str kv.1)
  | _ => []

/-- Python `for x in j`: raises `TypeError` on non-iterables. -/
def pyIter (j : Json) : Except String (List Json) :=
  match j with
  | .arr _ | .str _ | .obj _ => .ok (iterElems j)
  | _ => .error "TypeError: not iterable"

/-- Python `x.strip()` on a dynamic value: `AttributeError` unless `x` is
a string. -/
def pyStripJ (j : Json) : Except String String :=
  match j with
  | .str s => .ok (pyStrip s)
  | _ => .error "AttributeError: no attribute strip"

/-- Python `x == lit` for a string literal `lit` (values of other types
compare unequal). -/
def jEqStr (j : Json) (s : String) : Bool :=
  match j with
  | .str t => t = s
  | _ => false

/-- Python truthiness (`if not data: ...`). -/
def pyFalsy (j : Json) : Bool :=
  match j with
  | .null => true
  | .bool b => !b
  | .num n => n = 0
  | .str s => s.isEmpty
  | .arr xs => xs.isEmpty
  | .obj kvs => kvs.isEmpty

/-- Is the value a JSON object (Python dict)? -/
def isObjJ (j : Json) : Bool :=
  match j with
  | .obj _ => true
  | _ => false

/-- Python `repr` (as used by `str()` on containers).  Exact quoting of
nested strings is not load-bearing for any claim. -/
def pyRepr : Json → String
  | .null => "None"
  | .bool true => "True"
  | .bool false => "False"
  | .num n => toString n
  | .str s => "\x27" ++ s ++ "\x27"
  | .arr xs => "[" ++ joinSep ", " (xs.attach.map (fun x => pyRepr x.1)) ++ "]"
  | .obj kvs =>
      "\x7b" ++
        joinSep ", " (kvs.attach.map
          (fun kv => "\x27" ++ kv.1.1 ++ "\x27: " ++ pyRepr kv.1.2)) ++ "\x7d"
termination_by j => sizeOf j
decreasing_by
  · cases x with
    | mk v hv =>
      have h1 : sizeOf v < sizeOf xs := List.sizeOf_lt_of_mem hv
      simp; omega
  · cases kv with
    | mk p hp =>
      have h1 : sizeOf p < sizeOf kvs := List.sizeOf_lt_of_mem hp
      cases p with
      | mk k v => simp at h1 ⊢; omega

/-- Python `str(x)` (f-string rendering). -/
def pyStr (j : Json) : String :=
  match j with
  | .str s => s
  | _ => pyRepr j

/-- JSON string escaping for `json.dumps` (common escapes; exact escaping
of rare control characters is not load-bearing). -/
def jsonEscapeChar (c : Char) : List Char :=
  if c = '"' then ['\\', '"']
  else if c = '\\' then ['\\', '\\']
  else if c = '\n' then ['\\', 'n']
  else if c = '\t' then ['\\', 't']
  else if c = '\r' then ['\\', 'r']
  else [c]

/-- Escape the content of a JSON string literal. -/
def jsonEscape (s : String) : String := String.mk ((s.data.map jsonEscapeChar).flatten)

/-- `n` spaces (for `indent=2` pretty printing). -/
def spacesN (n : Nat) : String := String.mk (List.replicate n ' ')

/-- Python `json.dumps(x, ensure_ascii=False, indent=2)` at nesting
indentation `ind`. -/
def dumpsAux (ind : Nat) : Json → String
  | .null => "null"
  | .bool true => "true"
  | .bool false => "false"
  | .num n => toString n
  | .str s => "\"" ++ jsonEscape s ++ "\""
  | .arr [] => "[]"
  | .arr (x :: xs) =>
      "[\n" ++
        joinSep ",\n" (((x :: xs).attach.map
          (fun y => spacesN (ind + 2) ++ dumpsAux (ind + 2) y.1))) ++
        "\n" ++ spacesN ind ++ "]"
  | .obj [] => "\x7b\x7d"
  | .obj (kv :: kvs) =>
      "\x7b\n" ++
        joinSep ",\n" (((kv :: kvs).attach.map
          (fun p => spacesN (ind + 2) ++ "\"" ++ jsonEscape p.1.1 ++ "\": " ++
            dumpsAux (ind + 2) p.1.2))) ++
        "\n" ++ spacesN ind ++ "\x7d"
termination_by j => sizeOf j
decreasing_by
  · cases y with
    | mk v hv =>
      have h1 : sizeOf v < sizeOf (x :: xs) := List.sizeOf_lt_of_mem hv
      simp at h1 ⊢; omega
  · cases p with
    | mk q hq =>
      have h1 : sizeOf q < sizeOf (kv :: kvs) := List.sizeOf_lt_of_mem hq
      cases q with
      | mk k v => simp at h1 ⊢; omega

/-- `json.dumps(data, ensure_ascii=False, indent=2)`. -/
def jsonDumps (j : Json) : String := dumpsAux 0 j

/-! ### `extract_conversation` (notify.py lines 77-152) -/

/-- One fragment of a structured `content` list in the claude-code
branch (lines 91-94): dict fragments of type `"text"` contribute their
stripped `text` field; `.strip()` on a non-string `text` raises. -/
def fragText (c : Json) : Except String (Option String) :=
  match c with
  | .obj kvs =>
      if jEqStr (objGetD kvs "type" Json.null) "text" then do
        let t ← pyStripJ (objGetD kvs "text" (Json.str ""))
        pure (if t ≠ "" then some t else none)
      else pure none
  | _ => pure none

/-- The `for c in msg.get("content", [])` loop (lines 90-94). -/
def msgTextsItems : List Json → Except String (List String)
  | [] => pure []
  | c :: cs => do
      let t? ← fragText c
      let rest ← msgTextsItems cs
      pure (t?.toList ++ rest)

/-- Texts derived from one transcript item's `message` field
(lines 88-96): dict messages walk their `content` list, plain-string
messages contribute their stripped text, anything else contributes
nothing. -/
def msgTexts (msg : Json) : Except String (List String) :=
  match msg with
  | .obj kvs => do
      let cs ← pyIter (objGetD kvs "content" (Json.arr []))
      msgTextsItems cs
  | .str s => pure (if pyStrip s ≠ "" then [pyStrip s] else [])
  | _ => pure []

/-- One iteration of the claude-code transcript loop (lines 82-98). -/
def extractClaudeItem (item : Json) : Except String (Option Msg) := do
  let mt ← pyGet item "type" (Json.str "")
  if jEqStr mt "human" ∨ jEqStr mt "assistant" then do
    let role := if jEqStr mt "human" then "user" else "assistant"
    let msg ← pyGet item "message" (Json.obj [])
    let texts ← msgTexts msg
    pure (if texts ≠ [] then some (Msg.mk role (joinSep "\n\n" texts)) else none)
  else
    pure none

/-- The claude-code transcript loop (lines 82-98). -/
def extractClaudeItems : List Json → Except String (List Msg)
  | [] => pure []
  | item :: rest => do
      let m? ← extractClaudeItem item
      let tl ← extractClaudeItems rest
      pure (m?.toList ++ tl)

/-- One fragment of a codex `content` list (lines 114-119 and 134-139):
like claude fragments but bare strings are accepted too. -/
def codexFragText (c : Json) : Except String (List String) :=
  match c with
  | .obj kvs =>
      if jEqStr (objGetD kvs "type" Json.null) "text" then do
        let t ← pyStripJ (objGetD kvs "text" (Json.str ""))
        pure (if t ≠ "" then [t] else [])
      else pure ([] : List String)
  | .str s => pure (if pyStrip s ≠ "" then [pyStrip s] else [])
  | _ => pure ([] : List String)

/-- The `for c in content` loop of the codex branches (lines 113-119 and
133-139). -/
def codexFragTexts : List Json → Except String (List String)
  | [] => pure []
  | c :: cs => do
      let hd ← codexFragText c
      let tl ← codexFragTexts cs
      pure (hd ++ tl)

/-- Text derived from one codex message value; this logic is shared by
the `input-messages` items (lines 103-121) and `last-assistant-message`
(lines 124-141): a bare string, or a dict whose `content` is a string or
a fragment list. -/
def codexMsgText (j : Json) : Except String (Option String) :=
  match j with
  | .str s => pure (if pyStrip s ≠ "" then some (pyStrip s) else none)
  | .obj kvs =>
      match objGetD kvs "content" (Json.str "") with
      | .str s => pure (if pyStrip s ≠ "" then some (pyStrip s) else none)
      | .arr cs => do
          let ts ← codexFragTexts cs
          pure (if ts ≠ [] then some (joinSep "\n\n" ts) else none)
      | _ => pure none
  | _ => pure none

/-- The codex `input-messages` loop (lines 103-121). -/
def extractCodexItems : List Json → Except String (List Msg)
  | [] => pure []
  | item :: rest => do
      let t? ← codexMsgText item
      let tl ← extractCodexItems rest
      pure ((t?.map (fun t => Msg.mk "user" t)).toList ++ tl)

/-- `extract_conversation(data, source)` (lines 77-152). -/
def extract_conversation (data : Json) (source : String) : Except String (List Msg) :=
  if source = "claude-code" then do
    let items ← pyIter (← pyGet data "transcript" (Json.arr []))
    extractClaudeItems items
  else if source = "codex" then do
    let items ← pyIter (← pyGet data "input-messages" (Json.arr []))
    let users ← extractCodexItems items
    let lastMsg ← pyGet data "last-assistant-message" (Json.str "")
    let a? ← codexMsgText lastMsg
    let msgs := users ++ ((a?.map (fun t => Msg.mk "assistant" t)).toList)
    pure (if msgs = [] then [Msg.mk "assistant" (jsonDumps data)] else msgs)
  else
    pure [Msg.mk "assistant" (jsonDumps data)]

/-! ### `_escape_html` and `_text_to_html` (lines 67-74 and 155-207) -/

/-- Character-level effect of the four chained `.replace` calls of
`_escape_html` (lines 67-74); since `&` is replaced first and the
replacement strings introduce no further `&`, `<`, `>` or `"`, the chain
acts as this per-character substitution. -/
def escapeChar (c : Char) : List Char :=
  if c = '&' then "&amp;".data
  else if c = '<' then "&lt;".data
  else if c = '>' then "&gt;".data
  else if c = '"' then "&quot;".data
  else [c]

/-- `_escape_html(text)` (lines 67-74). -/
def escape_html (s : String) : String := String.mk ((s.data.map escapeChar).flatten)

/-- Locate the non-greedy close of `\*\*(.+?)\*\*` : split `cs` into a
shortest non-empty `inner` (not crossing a newline, as `.` does not match
one) followed by a literal `**` and the remainder. -/
def findClose : List Char → Option (List Char × List Char)
  | [] => none
  | c :: cs =>
      if c = '\n' then none
      else
        match cs with
        | '*' :: '*' :: rest => some ([c], rest)
        | _ =>
            match findClose cs with
            | some (inner, rest) => some (c :: inner, rest)
            | none => none

theorem findClose_length : ∀ cs inner rest, findClose cs = some (inner, rest) →
    rest.length < cs.length := by
  intro cs
  induction cs with
  | nil => intro inner rest h; simp [findClose] at h
  | cons c cs ih =>
    intro inner rest h
    simp only [findClose] at h
    split at h
    · simp at h
    · split at h
      · simp only [Option.some.injEq, Prod.mk.injEq] at h
        obtain ⟨-, h2⟩ := h
        subst h2
        simp
        omega
      · split at h
        · rename_i inner2 rest2 heq
          simp only [Option.some.injEq, Prod.mk.injEq] at h
          obtain ⟨-, h2⟩ := h
          subst h2
          have := ih inner2 rest2 heq
          simp
          omega
        · simp at h

/-- `re.sub(r"\*\*(.+?)\*\*", r"<strong>\1</strong>", s)` (line 188):
scan left to right; at a `**`, if a closing `**` exists (non-greedy),
emit the emphasised span and continue after it, else advance one
character. -/
def boldSub (cs : List Char) : List Char :=
  match cs with
  | [] => []
  | '*' :: '*' :: cs2 =>
      match h : findClose cs2 with
      | some (inner, rest) =>
          "<strong>".data ++ inner ++ "</strong>".data ++ boldSub rest
      | none => '*' :: boldSub ('*' :: cs2)
  | c :: cs1 => c :: boldSub cs1
termination_by cs.length
decreasing_by
  · have := findClose_length cs2 inner rest h
    simp; omega
  · simp
  · simp

/-- Does a stripped line open or close a fenced block (line 164)? -/
def fenceLine (l : String) : Bool := pyStartsWith (pyStrip l) "```"

/-- The `<pre>` block emitted for fenced code (lines 168-176 and
197-205; both occurrences use the same style string). -/
def preBlock (codeText : String) : String :=
  "<pre style=\"margin:8px 0;padding:12px 16px;background:#1F2937;color:#E5E7EB;font-size:12px;line-height:1.6;font-family:\x27SF Mono\x27,\x27Fira Code\x27,Consolas,monospace;border-radius:6px;white-space:pre-wrap;word-break:break-all;overflow:hidden;\">"
    ++ codeText ++ "</pre>"

/-- Rendering of one non-code line (lines 186-192): escape, bold
substitution, then `<br>` handling. -/
def renderLine (l : String) : String :=
  let escaped := String.mk (boldSub (escape_html l).data)
  if pyStrip escaped ≠ "" then escaped ++ "<br>" else "<br>"

/-- The `for line in lines` state machine of `_text_to_html`
(lines 162-205), producing the `html_parts` list; the trailing cases
model the unterminated-fence handling of lines 194-205 (a `<pre>` block
only when `code_lines` is non-empty). -/
def ttlLoop : List String → Bool → List String → List String
  | [], inCode, codeLines =>
      if inCode ∧ codeLines ≠ [] then
        [preBlock (escape_html (joinSep "\n" codeLines))]
      else []
  | l :: ls, true, codeLines =>
      if fenceLine l then
        preBlock (escape_html (joinSep "\n" codeLines)) :: ttlLoop ls false []
      else ttlLoop ls true (codeLines ++ [l])
  | l :: ls, false, codeLines =>
      if fenceLine l then ttlLoop ls true []
      else renderLine l :: ttlLoop ls false codeLines

/-- The `html_parts` list built by `_text_to_html(text)`. -/
def textToHtmlParts (text : String) : List String :=
  ttlLoop (pySplitChar '\n' text) false []

/-- `_text_to_html(text)` (lines 155-207). -/
def text_to_html (text : String) : String := joinSep "\n" (textToHtmlParts text)

/-- Does an emitted part open a preformatted block (start with the
`<pre` tag)?  Non-code parts never do: escaping leaves no raw `<`, and
the bold substitution and `<br>` only introduce `<strong>`, `</strong>`
and `<br>`. -/
def hasPreTag (s : String) : Bool := ("<pre".data).isPrefixOf s.data

/-! ### Config resolution (lines 49-62) -/

/-- `get_config(env, key, default)` (lines 49-54): the process
environment (modelled as `osEnv`) wins over the loaded file mapping. -/
def get_config (osEnv : String → Option String) (env : List (String × String))
    (key : String) (dflt : String) : String :=
  match osEnv key with
  | some v => v
  | none =>
      match env.lookup key with
      | some v => v
      | none => dflt

/-- `get_enabled_channels(env)` (lines 57-62). -/
def get_enabled_channels (osEnv : String → Option String)
    (env : List (String × String)) : List String :=
  let channelsStr := get_config osEnv env "NOTIFY_CHANNELS" ""
  if channelsStr = "" then []
  else ((pySplitChar ',' channelsStr).filter (fun c => pyStrip c != "")).map
    (fun c => pyLower (pyStrip c))

/-! ### `build_email_html` (lines 210-411) -/

/-- Theme colours `(accent, accent_light, accent_dark)` (lines 213-224). -/
def accentFor (title source : String) : String × String × String :=
  if containsSub title "Claude" ∨ source = "claude-code" then
    ("#D97706", "#FEF3C7", "#92400E")
  else if containsSub title "Codex" ∨ source = "codex" then
    ("#059669", "#D1FAE5", "#065F46")
  else ("#2563EB", "#DBEAFE", "#1E40AF")

/-- Python `s[:n] + "..." if len(s) > n else s` (lines 242, 247, 250). -/
def truncDots (s : String) (n : Nat) : String :=
  if s.length > n then String.mk (s.data.take n) ++ "..." else s

/-- The `meta_rows` list (lines 229-250). -/
def metaRowsFor (now : String) (data : Json) : List (String × String) :=
  let cwd := jGetD data "cwd" (Json.str "")
  let session_id := jGetD data "session_id" (Json.str "")
  let thread_id := jGetD data "thread-id" (Json.str "")
  let turn_id := jGetD data "turn-id" (Json.str "")
  let event_type := jGetD data "type" (Json.str "")
  [("完成时间", now)]
    ++ (if !pyFalsy cwd then [("工作目录", pyStr cwd)] else [])
    ++ (if !pyFalsy session_id then [("会话ID", truncDots (pyStr session_id) 12)] else [])
    ++ (if !pyFalsy event_type then [("事件类型", pyStr event_type)] else [])
    ++ (if !pyFalsy thread_id then [("线程ID", truncDots (pyStr thread_id) 16)] else [])
    ++ (if !pyFalsy turn_id then [("轮次ID", truncDots (pyStr turn_id) 16)] else [])

/-- One `meta_html` table row (lines 253-263). -/
def metaRowHtml (key value : String) : String :=
  "<tr><td style=\"padding:8px 14px;color:#6B7280;font-size:13px;white-space:nowrap;vertical-align:top;border-bottom:1px solid #F3F4F6;\">"
    ++ escape_html key
    ++ "</td><td style=\"padding:8px 14px;color:#111827;font-size:13px;word-break:break-all;border-bottom:1px solid #F3F4F6;\">"
    ++ escape_html value ++ "</td></tr>"

/-- One conversation card (lines 270-298). -/
def msgCard (m : Msg) : String :=
  let role_label := if m.role = "user" then "USER" else "AI ASSISTANT"
  let role_color := if m.role = "user" then "#4F46E5" else "#047857"
  let bg_color := if m.role = "user" then "#EEF2FF" else "#F0FDF4"
  let border_color := if m.role = "user" then "#6366F1" else "#10B981"
  "<tr><td style=\"padding:0 24px 12px;\"><table width=\"100%\" cellpadding=\"0\" cellspacing=\"0\" style=\"border-collapse:collapse;\"><tr><td style=\"padding:14px 16px;background:"
    ++ bg_color ++ ";border-left:3px solid " ++ border_color
    ++ ";border-radius:4px;\"><div style=\"font-size:11px;font-weight:700;color:"
    ++ role_color ++ ";text-transform:uppercase;letter-spacing:0.5px;margin-bottom:8px;\">"
    ++ role_label
    ++ "</div><div style=\"font-size:14px;color:#1F2937;line-height:1.7;\">"
    ++ text_to_html m.text
    ++ "</div></td></tr></table></td></tr>"

/-- The raw-payload fallback block (lines 301-314). -/
def rawFallbackPre (rawText : String) : String :=
  "<tr><td style=\"padding:0 24px 16px;\"><pre style=\"margin:0;padding:16px;background:#1F2937;color:#E5E7EB;font-size:12px;line-height:1.6;font-family:\x27SF Mono\x27,\x27Fira Code\x27,Consolas,monospace;border-radius:8px;white-space:pre-wrap;word-break:break-all;\">"
    ++ rawText ++ "</pre></td></tr>"

/-- The outer HTML document template (lines 316-409): top colour bar,
title with COMPLETED badge, metadata table, conversation section,
footer (inter-tag whitespace compressed; layout is not load-bearing). -/
def emailShell (accent accentLight accentDark titleHtml metaHtml conversationHtml now : String) : String :=
  "<!DOCTYPE html><html lang=\"zh-CN\"><head><meta charset=\"utf-8\"><meta name=\"viewport\" content=\"width=device-width,initial-scale=1.0\"></head><body style=\"margin:0;padding:0;background-color:#F3F4F6;font-family:-apple-system,BlinkMacSystemFont,\x27Segoe UI\x27,Roboto,\x27Helvetica Neue\x27,Arial,sans-serif;\"><table width=\"100%\" cellpadding=\"0\" cellspacing=\"0\" style=\"border-collapse:collapse;background:#F3F4F6;\"><tr><td align=\"center\" style=\"padding:32px 16px;\"><table width=\"640\" cellpadding=\"0\" cellspacing=\"0\" style=\"border-collapse:collapse;background:#FFFFFF;border-radius:12px;overflow:hidden;box-shadow:0 4px 24px rgba(0,0,0,0.08);\"><tr><td style=\"height:4px;background:"
    ++ accent
    ++ ";font-size:0;line-height:0;\">&nbsp;</td></tr><tr><td style=\"padding:24px 24px 16px;\"><table width=\"100%\" cellpadding=\"0\" cellspacing=\"0\" style=\"border-collapse:collapse;\"><tr><td style=\"vertical-align:middle;\"><span style=\"font-size:20px;font-weight:700;color:#111827;\">"
    ++ titleHtml
    ++ "</span></td><td align=\"right\" style=\"vertical-align:middle;\"><span style=\"display:inline-block;padding:4px 12px;background:"
    ++ accentLight ++ ";color:" ++ accentDark
    ++ ";font-size:11px;font-weight:600;border-radius:20px;letter-spacing:0.3px;\">COMPLETED</span></td></tr></table></td></tr><tr><td style=\"padding:0 24px;\"><hr style=\"border:none;border-top:1px solid #E5E7EB;margin:0;\"></td></tr><tr><td style=\"padding:16px 24px;\"><table width=\"100%\" cellpadding=\"0\" cellspacing=\"0\" style=\"border-collapse:collapse;background:#F9FAFB;border-radius:8px;border:1px solid #E5E7EB;\">"
    ++ metaHtml
    ++ "</table></td></tr><tr><td style=\"padding:8px 24px 12px;\"><span style=\"font-size:12px;font-weight:600;color:#6B7280;text-transform:uppercase;letter-spacing:0.5px;\">Conversation</span></td></tr>"
    ++ conversationHtml
    ++ "<tr><td style=\"padding:16px 24px;background:#F9FAFB;border-top:1px solid #E5E7EB;\"><table width=\"100%\" cellpadding=\"0\" cellspacing=\"0\" style=\"border-collapse:collapse;\"><tr><td style=\"font-size:11px;color:#9CA3AF;\">AI Task Notify</td><td align=\"right\" style=\"font-size:11px;color:#9CA3AF;\">"
    ++ now
    ++ "</td></tr></table></td></tr></table><table width=\"640\" cellpadding=\"0\" cellspacing=\"0\" style=\"border-collapse:collapse;\"><tr><td align=\"center\" style=\"padding:16px 0;font-size:11px;color:#9CA3AF;\">此邮件由系统自动生成，请勿直接回复</td></tr></table></td></tr></table></body></html>"

/-- `build_email_html(title, source, data)` (lines 210-411), with
`datetime.now()` passed in as `now`. -/
def build_email_html (now title source : String) (data : Json) : Except String String := do
  let ac := accentFor title source
  let metaHtml := strConcat ((metaRowsFor now data).map (fun kv => metaRowHtml kv.1 kv.2))
  let conversation ← (if isObjJ data then extract_conversation data source else pure [])
  let ch := strConcat (conversation.map msgCard)
  let conversationHtml :=
    if ch = "" then
      rawFallbackPre (escape_html (if isObjJ data then jsonDumps data else pyStr data))
    else ch
  pure (emailShell ac.1 ac.2.1 ac.2.2 (escape_html title) metaHtml conversationHtml now)

/-! ### `send_email` (lines 414-460) -/

/-- The `all([...])` guard on the five required settings (line 428). -/
def emailSettingsPresent (osEnv : String → Option String)
    (env : List (String × String)) : Bool :=
  (get_config osEnv env "SMTP_HOST" "" != "") &&
  (get_config osEnv env "SMTP_USER" "" != "") &&
  (get_config osEnv env "SMTP_PASSWORD" "" != "") &&
  (get_config osEnv env "EMAIL_FROM" "" != "") &&
  (get_config osEnv env "EMAIL_TO" "" != "")

/-- Decimal digits to a natural number. -/
def digitsToNat (ds : List Char) : Nat := ds.foldl (fun a c => a * 10 + (c.toNat - 48)) 0

/-- Python `int(s)` on a string: strip, optional sign, digits; raises
`ValueError` otherwise (line 431). -/
def pyIntE (s : String) : Except String Int :=
  match (pyStrip s).data with
  | [] => .error "ValueError: invalid literal for int"
  | '-' :: ds =>
      if ds ≠ [] ∧ ds.all Char.isDigit then .ok (-(digitsToNat ds : Int))
      else .error "ValueError: invalid literal for int"
  | '+' :: ds =>
      if ds ≠ [] ∧ ds.all Char.isDigit then .ok (digitsToNat ds)
      else .error "ValueError: invalid literal for int"
  | ds =>
      if ds.all Char.isDigit then .ok (digitsToNat ds)
      else .error "ValueError: invalid literal for int"

/-- Python `data or {}` (line 444). -/
def pyOrDefault (d : Option Json) : Json :=
  match d with
  | none => Json.obj []
  | some j => if pyFalsy j then Json.obj [] else j

/-- The boolean the `try`/`except` of lines 447-460 turns the SMTP
session outcome into: `True` on success, `False` on any exception. -/
def smtpOutcomeBool (smtp : Except String Unit) : Bool :=
  match smtp with
  | .ok _ => true
  | .error _ => false

/-- `send_email(env, title, content, source, data)` (lines 414-460).
The abstract parameter `smtp` is the outcome of the whole `try` block
(lines 447-457: connect or connect+starttls, login, sendmail, quit); the
`except` clause maps any such exception to the return value `False`.
Everything before the `try` (the five-settings check, `int(SMTP_PORT)`,
the SSL flag, the recipient split, the MIME assembly including
`build_email_html`) runs unprotected, so its exceptions escape as
`.error`. -/
def send_email (osEnv : String → Option String) (now : String)
    (env : List (String × String)) (title content source : String)
    (data : Option Json) (smtp : Except String Unit) : Except String Bool :=
  if emailSettingsPresent osEnv env then do
    let _smtp_port ← pyIntE (get_config osEnv env "SMTP_PORT" "465")
    let _use_ssl := pyLower (get_config osEnv env "SMTP_USE_SSL" "true") == "true"
    let email_to := get_config osEnv env "EMAIL_TO" ""
    let _recipients := ((pySplitChar ',' email_to).filter (fun e => pyStrip e != "")).map pyStrip
    let _plain := content
    let _html ← build_email_html now title source (pyOrDefault data)
    pure (smtpOutcomeBool smtp)
  else
    pure false

/-! ### Dispatcher `send_notification` (lines 465-492) -/

/-- A channel handler: invoked with (config, title, content, source,
payload); a raised exception is an `.error`. -/
abbrev Handler := List (String × String) → String → String → String → Option Json →
  Except String Bool

/-- Python dict insertion `results[channel] = v` (update in place or
append). -/
def dictSet : List (String × Bool) → String → Bool → List (String × Bool)
  | [], k, v => [(k, v)]
  | (k2, v2) :: rest, k, v =>
      if k2 = k then (k, v) :: rest else (k2, v2) :: dictSet rest k v

/-- The per-channel `try`/`except` (lines 484-490): a handler exception
is caught and recorded as `False`. -/
def runHandler (x : Except String Bool) : Bool :=
  match x with
  | .ok b => b
  | .error _ => false

/-- The `for channel in channels` loop (lines 481-490), generalised over
the handler registry. -/
def send_notification_loop (handlers : String → Option Handler)
    (env : List (String × String)) (title content source : String)
    (data : Option Json) : List String → List (String × Bool) → List (String × Bool)
  | [], results => results
  | c :: cs, results =>
      match handlers c with
      | some h =>
          send_notification_loop handlers env title content source data cs
            (dictSet results c (runHandler (h env title content source data)))
      | none => send_notification_loop handlers env title content source data cs results

/-- `send_notification` over an arbitrary registry. -/
def send_notification_with (handlers : String → Option Handler)
    (osEnv : String → Option String) (env : List (String × String))
    (title content source : String) (data : Option Json) : List (String × Bool) :=
  send_notification_loop handlers env title content source data
    (get_enabled_channels osEnv env) []

/-- `CHANNEL_HANDLERS` (lines 465-467): only `"email"` is registered. -/
def CHANNEL_HANDLERS (osEnv : String → Option String) (now : String)
    (smtp : Except String Unit) : String → Option Handler :=
  fun name =>
    if name = "email" then
      some (fun env t c s d => send_email osEnv now env t c s d smtp)
    else none

/-- `send_notification(env, title, content, source, data)` (lines
470-492). -/
def send_notification (osEnv : String → Option String) (now : String)
    (smtp : Except String Unit) (env : List (String × String))
    (title content source : String) (data : Option Json) : List (String × Bool) :=
  send_notification_with (CHANNEL_HANDLERS osEnv now smtp) osEnv env title content source data

/-! ### `format_message` (lines 495-580) -/

/-- The transcript scan of the claude-code branch (lines 505-523),
threading `last_user_msg` / `last_ai_msg`. -/
def formatClaudeLoop : List Json → String → String → Except String (String × String)
  | [], lu, la => pure (lu, la)
  | item :: rest, lu, la => do
      let mt ← pyGet item "type" (Json.str "")
      let msg ← pyGet item "message" (Json.obj [])
      let texts ← msgTexts msg
      let ft := joinSep "\n\n" texts
      if ft ≠ "" then
        if jEqStr mt "human" then formatClaudeLoop rest ft la
        else if jEqStr mt "assistant" then formatClaudeLoop rest lu ft
        else formatClaudeLoop rest lu la
      else formatClaudeLoop rest lu la

/-- `data.get('session_id', 'N/A')[:8]` as rendered into the f-string
(line 528): slicing raises `TypeError` on non-subscriptable values. -/
def sidSliceRender (j : Json) : Except String String :=
  match j with
  | .str s => .ok (String.mk (s.data.take 8))
  | .arr xs => .ok (pyStr (Json.arr (xs.take 8)))
  | _ => .error "TypeError: unsubscriptable"

/-- The claude-code plain-text body template (lines 526-534). -/
def claudeContent (now cwd sid lu la : String) : String :=
  "**时间**: " ++ now ++ "\n**工作目录**: " ++ cwd ++ "\n**会话ID**: " ++ sid ++
  "...\n\n**用户指令**:\n" ++ lu ++ "\n\n**AI 回复**:\n" ++ la

/-- The codex plain-text body template (lines 560-568). -/
def codexContent (now cwd et userMsg aiMsg : String) : String :=
  "**时间**: " ++ now ++ "\n**工作目录**: " ++ cwd ++ "\n**事件类型**: " ++ et ++
  "\n\n**用户指令**:\n" ++ userMsg ++ "\n\n**AI 回复**:\n" ++ aiMsg

/-- The fallback plain-text body template (lines 572-578). -/
def unknownContent (now source : String) (data : Json) : String :=
  "**时间**: " ++ now ++ "\n**来源**: " ++ source ++ "\n\n**数据**:\n```json\n" ++
  jsonDumps data ++ "\n```"

/-- The codex user-text collection of `format_message` (lines 540-548):
unlike the extractor it accepts only bare strings and dicts with a
string `content` (no fragment lists); it never raises. -/
def codexFormatUserTexts : List Json → List String
  | [] => []
  | item :: rest =>
      (match item with
       | .str s => if pyStrip s ≠ "" then [pyStrip s] else []
       | .obj kvs =>
           match objGetD kvs "content" (Json.str "") with
           | .str s => if pyStrip s ≠ "" then [pyStrip s] else []
           | _ => []
       | _ => []) ++ codexFormatUserTexts rest

/-- `format_message(source, event_type, data)` (lines 495-580), with
`datetime.now()` passed in as `now`; returns `(title, content)`. -/
def format_message (source : String) (event_type : Json) (now : String) (data : Json) :
    Except String (String × String) :=
  if source = "claude-code" then do
    let items ← pyIter (← pyGet data "transcript" (Json.arr []))
    let lp ← formatClaudeLoop items "" ""
    let cwd ← pyGet data "cwd" (Json.str "N/A")
    let sid ← sidSliceRender (← pyGet data "session_id" (Json.str "N/A"))
    pure ("Claude Code 任务完成",
      claudeContent now (pyStr cwd) sid
        (if lp.1 ≠ "" then lp.1 else "(无内容)")
        (if lp.2 ≠ "" then lp.2 else "(无内容)"))
  else if source = "codex" then do
    let items ← pyIter (← pyGet data "input-messages" (Json.arr []))
    let userTexts := codexFormatUserTexts items
    let userMsg := if userTexts ≠ [] then joinSep "\n" userTexts else "(无内容)"
    let lastMsg ← pyGet data "last-assistant-message" (Json.str "")
    let aiMsg :=
      match lastMsg with
      | .str s => if pyStrip s ≠ "" then pyStrip s else "(无内容)"
      | .obj kvs =>
          let t := pyStrip (pyStr (objGetD kvs "content" (Json.str "")))
          if t ≠ "" then t else "(无内容)"
      | _ => "(无内容)"
    let cwd ← pyGet data "cwd" (Json.str "N/A")
    pure ("Codex 任务完成", codexContent now (pyStr cwd) (pyStr event_type) userMsg aiMsg)
  else
    pure ("AI 任务完成", unknownContent now source data)

/-! ### `parse_input` (lines 583-619) and `main` (lines 622-656) -/

/-- `parse_input()` (lines 583-619).  `argvJson` is the decode outcome
of `sys.argv[1]` when present (`.error` = `json.JSONDecodeError`, which
is swallowed); `stdinJson` is the decode outcome of piped stdin when the
process has piped, non-empty standard input.  The returned triple is
`(source, event_type, data)` with `none` standing for the `None`
sentinel of line 603. -/
def parse_input (argvJson : Option (Except Unit Json))
    (stdinJson : Option (Except Unit Json)) :
    Except String (String × Json × Option Json) :=
  match argvJson with
  | some (.ok j) => do
      let et ← pyGet j "type" (Json.str "")
      if jEqStr et "agent-turn-complete" then
        pure ("codex", et, some j)
      else
        pure ("codex", et, none)
  | _ =>
      match stdinJson with
      | some (.ok sj) => pure ("claude-code", Json.str "stop", some sj)
      | _ => pure ("unknown", Json.str "", some (Json.obj []))

/-- `True` when some channel reported success (`success_count > 0`,
line 650). -/
def anySuccess (results : List (String × Bool)) : Bool := results.any (fun r => r.2)

/-- `main()` (lines 622-656), parameterised by the config file contents
(`env`, the result of `load_env`), the process environment, the parse
result and the abstract SMTP outcome; returns the exit code. -/
def mainRun (osEnv : String → Option String) (env : List (String × String))
    (source : String) (event_type : Json) (data? : Option Json)
    (smtp : Except String Unit) (now : String) : Except String Nat :=
  let channels := get_enabled_channels osEnv env
  if channels = [] then pure 0
  else
    match data? with
    | none => pure 0
    | some data =>
      if pyFalsy data then pure 1
      else do
        let tc ← format_message source event_type now data
        let results := send_notification osEnv now smtp env tc.1 tc.2 source (some data)
        pure (if anySuccess results then 0 else 1)

/-- Did the modelled Python computation raise? -/
def raisesB {α : Type} (x : Except String α) : Bool :=
  match x with
  | .ok _ => false
  | .error _ => true

/-- Did the modelled Python computation return normally? -/
def isOkE {α : Type} (x : Except String α) : Bool := !(raisesB x)

/-! ### Specification-side (pure) descriptions of the extractor

These definitions restate, in the spec's words, what the extractor is
claimed to produce; the refinement theorems below compare them with the
monadic embeddings of the source. -/

/-- Spec: a claude fragment contributes its trimmed text when it is an
object of type `text` with non-blank text. -/
def specFragTextClaude (c : Json) : Option String :=
  match c with
  | .obj kvs =>
      if jEqStr (objGetD kvs "type" Json.null) "text" then
        match objGetD kvs "text" (Json.str "") with
        | .str s => if pyStrip s ≠ "" then some (pyStrip s) else none
        | _ => none
      else none
  | _ => none

/-- Spec: texts derived from a transcript item's message (structured
object with a `content` fragment list, or a plain non-blank string). -/
def specMsgTextsP (msg : Json) : List String :=
  match msg with
  | .obj kvs =>
      (iterElems (objGetD kvs "content" (Json.arr []))).filterMap specFragTextClaude
  | .str s => if pyStrip s ≠ "" then [pyStrip s] else []
  | _ => []

/-- Spec: the message extracted from one claude transcript entry: only
`human`/`assistant` typed entries with non-empty derived text, with
`human` mapped to role `user`. -/
def specClaudeItemMsg (item : Json) : Option Msg :=
  match item with
  | .obj kvs =>
      let mt := objGetD kvs "type" (Json.str "")
      if jEqStr mt "human" ∨ jEqStr mt "assistant" then
        let role := if jEqStr mt "human" then "user" else "assistant"
        let texts := specMsgTextsP (objGetD kvs "message" (Json.obj []))
        if texts ≠ [] then some (Msg.mk role (joinSep "\n\n" texts)) else none
      else none
  | _ => none

/-- Spec: the full claude extraction is the in-order subset of transcript
entries yielding a message. -/
def specClaudeMessages (data : Json) : List Msg :=
  (iterElems (jGetD data "transcript" (Json.arr []))).filterMap specClaudeItemMsg

/-- Spec: a codex fragment is a claude fragment or a bare non-blank
string. -/
def specCodexFragText (c : Json) : Option String :=
  match c with
  | .obj kvs =>
      if jEqStr (objGetD kvs "type" Json.null) "text" then
        match objGetD kvs "text" (Json.str "") with
        | .str s => if pyStrip s ≠ "" then some (pyStrip s) else none
        | _ => none
      else none
  | .str s => if pyStrip s ≠ "" then some (pyStrip s) else none
  | _ => none

/-- Spec: the text derived from a codex message value (bare string, or
object whose `content` is a non-blank string or a fragment list with at
least one contributing fragment). -/
def specCodexText (j : Json) : Option String :=
  match j with
  | .str s => if pyStrip s ≠ "" then some (pyStrip s) else none
  | .obj kvs =>
      match objGetD kvs "content" (Json.str "") with
      | .str s => if pyStrip s ≠ "" then some (pyStrip s) else none
      | .arr cs =>
          let ts := cs.filterMap specCodexFragText
          if ts ≠ [] then some (joinSep "\n\n" ts) else none
      | _ => none
  | _ => none

/-- Spec: the `user` messages from the `input-messages` entries, in
original order. -/
def specCodexUsers (data : Json) : List Msg :=
  (iterElems (jGetD data "input-messages" (Json.arr []))).filterMap
    (fun it => (specCodexText it).map (fun t => Msg.mk "user" t))

/-- Spec: the at-most-one `assistant` message derived from
`last-assistant-message`. -/
def specCodexAsst (data : Json) : List Msg :=
  ((specCodexText (jGetD data "last-assistant-message" (Json.str ""))).map
    (fun t => Msg.mk "assistant" t)).toList

/-- Spec (amended claim C1): all valid `input-messages` entries become
`user` messages in original order, then at most one `assistant` message
derived from `last-assistant-message` (exactly one when it yields
non-empty text); when both yield nothing the result is the single
pretty-printed-payload assistant message. -/
def specCodexMessages (data : Json) : List Msg :=
  if specCodexUsers data ++ specCodexAsst data = [] then
    [Msg.mk "assistant" (jsonDumps data)]
  else specCodexUsers data ++ specCodexAsst data

/-- The final text of the given role in an extracted conversation. -/
def lastTextOfRole (role : String) (msgs : List Msg) : Option String :=
  ((msgs.filter (fun m => m.role == role)).getLast?).map Msg.text

/-- Left-fold formulation of "last text of a role, with default": the
shape in which `format_message`'s transcript scan accumulates
`last_user_msg` / `last_ai_msg`. -/
def lastUpd (r : String) (msgs : List Msg) (dflt : String) : String :=
  msgs.foldl (fun acc m => if m.role == r then m.text else acc) dflt

/-! ### Benign payload shapes (amended claim C4)

`benignPayload` delimits the payload shapes on which extraction and
formatting provably return: transcript / input-messages entries may be
missing or oddly typed wherever the source guards with `isinstance`,
but transcript entries must be objects, fragment `text` fields must be
strings, structured message `content` must be iterable, and
`session_id` must be sliceable. -/

/-- A fragment that never raises: if it is an object of type `text`, its
`text` field must be a string (otherwise `.strip()` raises). -/
def benignFrag (c : Json) : Bool :=
  match c with
  | .obj kvs =>
      if jEqStr (objGetD kvs "type" Json.null) "text" then
        match objGetD kvs "text" (Json.str "") with
        | .str _ => true
        | _ => false
      else true
  | _ => true

/-- A `content` value that never raises when iterated by the claude
branch: iterable, with benign fragments. -/
def benignContentList (j : Json) : Bool :=
  match j with
  | .arr cs => cs.all benignFrag
  | .str _ => true
  | .obj _ => true
  | _ => false

/-- A `message` value that never raises (lines 88-96 / 509-516). -/
def benignMsgVal (m : Json) : Bool :=
  match m with
  | .obj kvs => benignContentList (objGetD kvs "content" (Json.arr []))
  | _ => true

/-- A transcript entry that never raises: must be an object (`.get` on
anything else raises), with a benign message. -/
def benignTranscriptItem (it : Json) : Bool :=
  match it with
  | .obj kvs => benignMsgVal (objGetD kvs "message" (Json.obj []))
  | _ => false

/-- A codex message value (`input-messages` entry or
`last-assistant-message`) that never raises: fragment lists must have
benign fragments; everything else is isinstance-guarded. -/
def benignCodexItem (it : Json) : Bool :=
  match it with
  | .obj kvs =>
      match objGetD kvs "content" (Json.str "") with
      | .arr cs => cs.all benignFrag
      | _ => true
  | _ => true

/-- An iterable field whose elements all satisfy `f`. -/
def benignIterOf (j : Json) (f : Json → Bool) : Bool :=
  (match j with
   | .arr _ | .str _ | .obj _ => true
   | _ => false) && (iterElems j).all f

/-- A `session_id` value that survives `[:8]` (line 528). -/
def benignSessionId (j : Json) : Bool :=
  match j with
  | .str _ => true
  | .arr _ => true
  | _ => false

/-- Payload shapes on which `extract_conversation` and `format_message`
provably return for every source. -/
def benignPayload (data : Json) : Bool :=
  isObjJ data &&
  benignIterOf (jGetD data "transcript" (Json.arr [])) benignTranscriptItem &&
  benignIterOf (jGetD data "input-messages" (Json.arr [])) benignCodexItem &&
  benignCodexItem (jGetD data "last-assistant-message" (Json.str "")) &&
  benignSessionId (jGetD data "session_id" (Json.str "N/A"))

/-! ## Helper lemmas -/

theorem string_eq_empty_iff (s : String) : s = "" ↔ s.data = [] := by
  constructor
  · intro h; subst h; rfl
  · intro h; cases s; simp at h; subst h; rfl

theorem joinSep_ne_empty (sep : String) (ts : List String) (h1 : ts ≠ [])
    (h2 : ∀ t ∈ ts, t ≠ "") : joinSep sep ts ≠ "" := by
  match ts with
  | [] => exact absurd rfl h1
  | [t] => simpa [joinSep] using h2 t (by simp)
  | t :: t2 :: tr =>
    simp only [joinSep]
    intro he
    rw [string_eq_empty_iff] at he
    rw [String.data_append, String.data_append] at he
    have ht : t.data = [] := by
      rcases List.append_eq_nil.mp he with ⟨h3, -⟩
      rcases List.append_eq_nil.mp h3 with ⟨h4, -⟩
      exact h4
    exact h2 t (by simp) (string_eq_empty_iff t |>.mpr ht)

theorem pyIter_spec (j : Json) (xs : List Json) (h : pyIter j = .ok xs) :
    xs = iterElems j := by
  cases j <;> simp [pyIter] at h <;> exact h.symm

/-! ## Claim C5: the claude-code extraction -/

theorem fragText_spec (c : Json) (t? : Option String) (h : fragText c = .ok t?) :
    t? = specFragTextClaude c := by
  cases c with
  | obj kvs =>
    simp only [fragText, specFragTextClaude] at h ⊢
    split at h
    · rename_i hty
      cases hv : objGetD kvs "text" (Json.str "") with
      | str s =>
        rw [hv] at h
        simp [pyStripJ, bind, Except.bind, pure, Except.pure] at h
        simp [hv, hty, ← h]
      | null => rw [hv] at h; simp [pyStripJ, bind, Except.bind] at h
      | bool b => rw [hv] at h; simp [pyStripJ, bind, Except.bind] at h
      | num n => rw [hv] at h; simp [pyStripJ, bind, Except.bind] at h
      | arr xs => rw [hv] at h; simp [pyStripJ, bind, Except.bind] at h
      | obj kvs2 => rw [hv] at h; simp [pyStripJ, bind, Except.bind] at h
    · rename_i hty
      simp [pure, Except.pure] at h
      simp [hty, ← h]
  | null => simp [fragText, specFragTextClaude, pure, Except.pure] at h ⊢; exact h.symm
  | bool b => simp [fragText, specFragTextClaude, pure, Except.pure] at h ⊢; exact h.symm
  | num n => simp [fragText, specFragTextClaude, pure, Except.pure] at h ⊢; exact h.symm
  | str s => simp [fragText, specFragTextClaude, pure, Except.pure] at h ⊢; exact h.symm
  | arr xs => simp [fragText, specFragTextClaude, pure, Except.pure] at h ⊢; exact h.symm

theorem msgTextsItems_spec : ∀ cs ts, msgTextsItems cs = .ok ts →
    ts = cs.filterMap specFragTextClaude := by
  intro cs
  induction cs with
  | nil => intro ts h; simp [msgTextsItems, pure, Except.pure] at h; simp [← h]
  | cons c cs ih =>
    intro ts h
    cases hf : fragText c with
    | error e => simp [msgTextsItems, hf, bind, Except.bind] at h
    | ok t? =>
      cases hr : msgTextsItems cs with
      | error e => simp [msgTextsItems, hf, hr, bind, Except.bind] at h
      | ok rest =>
        simp only [msgTextsItems, hf, hr, bind, Except.bind, pure, Except.pure,
          Except.ok.injEq] at h
        have h2 := ih rest hr
        rw [fragText_spec c t? hf] at h
        rw [← h, h2, List.filterMap_cons]
        cases specFragTextClaude c <;> simp

theorem msgTexts_spec (msg : Json) (ts : List String) (h : msgTexts msg = .ok ts) :
    ts = specMsgTextsP msg := by
  cases msg with
  | obj kvs =>
    cases hi : pyIter (objGetD kvs "content" (Json.arr [])) with
    | error e => simp [msgTexts, hi, bind, Except.bind] at h
    | ok cs =>
      simp only [msgTexts, hi, bind, Except.bind] at h
      have h2 := msgTextsItems_spec cs ts h
      rw [pyIter_spec _ _ hi] at h2
      simpa [specMsgTextsP] using h2
  | str s => simp [msgTexts, pure, Except.pure, specMsgTextsP] at h ⊢; exact h.symm
  | null => simp [msgTexts, pure, Except.pure, specMsgTextsP] at h ⊢; exact h
  | bool b => simp [msgTexts, pure, Except.pure, specMsgTextsP] at h ⊢; exact h
  | num n => simp [msgTexts, pure, Except.pure, specMsgTextsP] at h ⊢; exact h
  | arr xs => simp [msgTexts, pure, Except.pure, specMsgTextsP] at h ⊢; exact h

theorem extractClaudeItem_spec (it : Json) (m? : Option Msg)
    (h : extractClaudeItem it = .ok m?) : m? = specClaudeItemMsg it := by
  cases it with
  | obj kvs =>
    simp only [extractClaudeItem, pyGet, bind, Except.bind, specClaudeItemMsg] at h ⊢
    split at h
    · rename_i hty
      cases hm : msgTexts (objGetD kvs "message" (Json.obj [])) with
      | error e => rw [hm] at h; simp at h
      | ok ts =>
        rw [hm] at h
        simp [pure, Except.pure] at h
        rw [msgTexts_spec _ _ hm] at h
        simp [hty, ← h]
    · rename_i hty
      simp [pure, Except.pure] at h
      simp [hty, ← h]
  | null => simp [extractClaudeItem, pyGet, bind, Except.bind] at h
  | bool b => simp [extractClaudeItem, pyGet, bind, Except.bind] at h
  | num n => simp [extractClaudeItem, pyGet, bind, Except.bind] at h
  | str s => simp [extractClaudeItem, pyGet, bind, Except.bind] at h
  | arr xs => simp [extractClaudeItem, pyGet, bind, Except.bind] at h

theorem extractClaudeItems_spec : ∀ items msgs, extractClaudeItems items = .ok msgs →
    msgs = items.filterMap specClaudeItemMsg := by
  intro items
  induction items with
  | nil => intro msgs h; simp [extractClaudeItems, pure, Except.pure] at h; simp [← h]
  | cons it rest ih =>
    intro msgs h
    cases hf : extractClaudeItem it with
    | error e => simp [extractClaudeItems, hf, bind, Except.bind] at h
    | ok m? =>
      cases hr : extractClaudeItems rest with
      | error e => simp [extractClaudeItems, hf, hr, bind, Except.bind] at h
      | ok tl =>
        simp only [extractClaudeItems, hf, hr, bind, Except.bind, pure, Except.pure,
          Except.ok.injEq] at h
        have h2 := ih tl hr
        rw [extractClaudeItem_spec it m? hf] at h
        rw [← h, h2, List.filterMap_cons]
        cases specClaudeItemMsg it <;> simp

theorem claude_extract_spec_aux (data : Json) (msgs : List Msg)
    (h : extract_conversation data "claude-code" = .ok msgs) :
    msgs = specClaudeMessages data := by
  cases data with
  | obj kvs =>
    simp only [extract_conversation, if_pos rfl, pyGet, bind, Except.bind] at h
    cases hi : pyIter (objGetD kvs "transcript" (Json.arr [])) with
    | error e => rw [hi] at h; simp at h
    | ok items =>
      rw [hi] at h
      have h2 := extractClaudeItems_spec items msgs h
      rw [pyIter_spec _ _ hi] at h2
      simpa [specClaudeMessages, jGetD] using h2
  | null => simp [extract_conversation, pyGet, bind, Except.bind] at h
  | bool b => simp [extract_conversation, pyGet, bind, Except.bind] at h
  | num n => simp [extract_conversation, pyGet, bind, Except.bind] at h
  | str s => simp [extract_conversation, pyGet, bind, Except.bind] at h
  | arr xs => simp [extract_conversation, pyGet, bind, Except.bind] at h

/-- Claim C5 (confirmed): for every payload on which the claude-code
extraction returns, it returns exactly the in-order subset of transcript
entries typed `human`/`assistant` whose derived text is non-empty,
`human` mapped to role `user` and `assistant` to `assistant`, entries
without non-empty text being omitted entirely — i.e. the extraction
refines its specification `specClaudeMessages`. -/
theorem claude_extract_spec (data : Json) (msgs : List Msg)
    (h : extract_conversation data "claude-code" = .ok msgs) :
    msgs = specClaudeMessages data :=
  claude_extract_spec_aux data msgs h

/-- Witness for C5 at a concrete two-entry transcript with an interleaved
`tool_use` entry and an entry with blank text (both skipped). -/
theorem claude_extract_spec_witness :
    extract_conversation (Json.obj [("transcript", Json.arr
      [Json.obj [("type", Json.str "human"), ("message", Json.str " hi ")],
       Json.obj [("type", Json.str "tool_use")],
       Json.obj [("type", Json.str "assistant"), ("message", Json.obj [("content",
         Json.arr [Json.obj [("type", Json.str "text"), ("text", Json.str "hello")]])])],
       Json.obj [("type", Json.str "human"), ("message", Json.str "  ")]])])
      "claude-code" = .ok [Msg.mk "user" "hi", Msg.mk "assistant" "hello"] ∧
    [Msg.mk "user" "hi", Msg.mk "assistant" "hello"] =
      specClaudeMessages (Json.obj [("transcript", Json.arr
      [Json.obj [("type", Json.str "human"), ("message", Json.str " hi ")],
       Json.obj [("type", Json.str "tool_use")],
       Json.obj [("type", Json.str "assistant"), ("message", Json.obj [("content",
         Json.arr [Json.obj [("type", Json.str "text"), ("text", Json.str "hello")]])])],
       Json.obj [("type", Json.str "human"), ("message", Json.str "  ")]])]) :=
  ⟨by rfl, claude_extract_spec _ _ (by rfl)⟩

/-! ## Claim C1: the codex extraction -/

theorem codexFragText_spec (c : Json) (hd : List String)
    (h : codexFragText c = .ok hd) : hd = (specCodexFragText c).toList := by
  cases c with
  | obj kvs =>
    simp only [codexFragText, specCodexFragText] at h ⊢
    split at h
    · rename_i hty
      cases hv : objGetD kvs "text" (Json.str "") with
      | str s =>
        rw [hv] at h
        simp [pyStripJ, bind, Except.bind, pure, Except.pure] at h
        rw [← h]
        simp [hv, hty]
        split <;> rename_i hc <;> simp [hc]
      | null => rw [hv] at h; simp [pyStripJ, bind, Except.bind] at h
      | bool b => rw [hv] at h; simp [pyStripJ, bind, Except.bind] at h
      | num n => rw [hv] at h; simp [pyStripJ, bind, Except.bind] at h
      | arr xs => rw [hv] at h; simp [pyStripJ, bind, Except.bind] at h
      | obj kvs2 => rw [hv] at h; simp [pyStripJ, bind, Except.bind] at h
    · rename_i hty
      simp [pure, Except.pure] at h
      simp [hty, ← h]
  | str s =>
    simp only [codexFragText, pure, Except.pure, Except.ok.injEq] at h
    rw [← h]
    split <;> rename_i hc <;> simp [specCodexFragText, hc]
  | null => simp [codexFragText, specCodexFragText, pure, Except.pure] at h ⊢; exact h
  | bool b => simp [codexFragText, specCodexFragText, pure, Except.pure] at h ⊢; exact h
  | num n => simp [codexFragText, specCodexFragText, pure, Except.pure] at h ⊢; exact h
  | arr xs => simp [codexFragText, specCodexFragText, pure, Except.pure] at h ⊢; exact h

theorem codexFragTexts_spec : ∀ cs ts, codexFragTexts cs = .ok ts →
    ts = cs.filterMap specCodexFragText := by
  intro cs
  induction cs with
  | nil => intro ts h; simp [codexFragTexts, pure, Except.pure] at h; simp [← h]
  | cons c cs ih =>
    intro ts h
    cases hf : codexFragText c with
    | error e => simp [codexFragTexts, hf, bind, Except.bind] at h
    | ok hd =>
      cases hr : codexFragTexts cs with
      | error e => simp [codexFragTexts, hf, hr, bind, Except.bind] at h
      | ok tl =>
        simp only [codexFragTexts, hf, hr, bind, Except.bind, pure, Except.pure,
          Except.ok.injEq] at h
        have h2 := ih tl hr
        rw [codexFragText_spec c hd hf] at h
        rw [← h, h2, List.filterMap_cons]
        cases specCodexFragText c <;> simp

theorem codexMsgText_spec (j : Json) (t? : Option String)
    (h : codexMsgText j = .ok t?) : t? = specCodexText j := by
  cases j with
  | obj kvs =>
    simp only [codexMsgText, specCodexText] at h ⊢
    cases hv : objGetD kvs "content" (Json.str "") with
    | str s => rw [hv] at h; simp [pure, Except.pure] at h; simp [hv, ← h]
    | arr cs =>
      rw [hv] at h
      cases hf : codexFragTexts cs with
      | error e => simp [hf, bind, Except.bind] at h
      | ok ts =>
        simp only [hf, bind, Except.bind, pure, Except.pure, Except.ok.injEq] at h
        rw [codexFragTexts_spec cs ts hf] at h
        simp [hv, ← h]
    | null => rw [hv] at h; simp [pure, Except.pure] at h; simp [hv, ← h]
    | bool b => rw [hv] at h; simp [pure, Except.pure] at h; simp [hv, ← h]
    | num n => rw [hv] at h; simp [pure, Except.pure] at h; simp [hv, ← h]
    | obj kvs2 => rw [hv] at h; simp [pure, Except.pure] at h; simp [hv, ← h]
  | str s => simp [codexMsgText, specCodexText, pure, Except.pure] at h ⊢; simp [← h]
  | null => simp [codexMsgText, specCodexText, pure, Except.pure] at h ⊢; simp [← h]
  | bool b => simp [codexMsgText, specCodexText, pure, Except.pure] at h ⊢; simp [← h]
  | num n => simp [codexMsgText, specCodexText, pure, Except.pure] at h ⊢; simp [← h]
  | arr xs => simp [codexMsgText, specCodexText, pure, Except.pure] at h ⊢; simp [← h]

theorem extractCodexItems_spec : ∀ items msgs, extractCodexItems items = .ok msgs →
    msgs = items.filterMap (fun it => (specCodexText it).map (fun t => Msg.mk "user" t)) := by
  intro items
  induction items with
  | nil => intro msgs h; simp [extractCodexItems, pure, Except.pure] at h; simp [← h]
  | cons it rest ih =>
    intro msgs h
    cases hf : codexMsgText it with
    | error e => simp [extractCodexItems, hf, bind, Except.bind] at h
    | ok t? =>
      cases hr : extractCodexItems rest with
      | error e => simp [extractCodexItems, hf, hr, bind, Except.bind] at h
      | ok tl =>
        simp only [extractCodexItems, hf, hr, bind, Except.bind, pure, Except.pure,
          Except.ok.injEq] at h
        have h2 := ih tl hr
        rw [codexMsgText_spec it t? hf] at h
        rw [← h, h2, List.filterMap_cons]
        cases specCodexText it <;> simp

theorem specCodexMessages_ne_nil (data : Json) : specCodexMessages data ≠ [] := by
  unfold specCodexMessages
  split
  · simp
  · assumption

theorem codex_extract_ok_shape (kvs : List (String × Json)) (msgs : List Msg)
    (items : List Json) (users : List Msg) (a? : Option String)
    (hi : pyIter (objGetD kvs "input-messages" (Json.arr [])) = .ok items)
    (hu : extractCodexItems items = .ok users)
    (ha : codexMsgText (objGetD kvs "last-assistant-message" (Json.str "")) = .ok a?)
    (h : extract_conversation (Json.obj kvs) "codex" = .ok msgs) :
    msgs = specCodexMessages (Json.obj kvs) := by
  simp only [extract_conversation, pyGet, bind, Except.bind, reduceIte, String.reduceEq,
    hi, hu, ha, pure, Except.pure, Except.ok.injEq] at h
  rw [extractCodexItems_spec items users hu, pyIter_spec _ _ hi,
    codexMsgText_spec _ _ ha] at h
  rw [← h]
  simp only [specCodexMessages, specCodexUsers, specCodexAsst, jGetD]

/-- Claim C1 (corrected, amended part): whenever the codex extraction
returns, its result is `specCodexMessages data` — all valid
`input-messages` entries as `user` messages in original order, then *at
most* one `assistant` message (exactly one when `last-assistant-message`
yields non-empty text, none otherwise), with the pretty-printed payload
fallback when both sources yield nothing — and the result is never
empty. -/
theorem codex_extract_spec (data : Json) (msgs : List Msg)
    (h : extract_conversation data "codex" = .ok msgs) :
    msgs = specCodexMessages data ∧ msgs ≠ [] := by
  cases data with
  | obj kvs =>
    cases hi : pyIter (objGetD kvs "input-messages" (Json.arr [])) with
    | error e =>
      simp [extract_conversation, pyGet, bind, Except.bind, hi] at h
    | ok items =>
      cases hu : extractCodexItems items with
      | error e =>
        simp [extract_conversation, pyGet, bind, Except.bind, hi, hu] at h
      | ok users =>
        cases ha : codexMsgText (objGetD kvs "last-assistant-message" (Json.str "")) with
        | error e =>
          simp [extract_conversation, pyGet, bind, Except.bind, hi, hu, ha] at h
        | ok a? =>
          have hs := codex_extract_ok_shape kvs msgs items users a? hi hu ha h
          exact ⟨hs, hs ▸ specCodexMessages_ne_nil _⟩
  | null => simp [extract_conversation, pyGet, bind, Except.bind] at h
  | bool b => simp [extract_conversation, pyGet, bind, Except.bind] at h
  | num n => simp [extract_conversation, pyGet, bind, Except.bind] at h
  | str s => simp [extract_conversation, pyGet, bind, Except.bind] at h
  | arr xs => simp [extract_conversation, pyGet, bind, Except.bind] at h

/-- Witness for C1 at scenario A of the spec. -/
theorem codex_extract_spec_witness :
    extract_conversation (Json.obj [("input-messages", Json.arr [Json.str "fix bug"]),
      ("last-assistant-message", Json.str "done")]) "codex" =
      .ok [Msg.mk "user" "fix bug", Msg.mk "assistant" "done"] ∧
    ([Msg.mk "user" "fix bug", Msg.mk "assistant" "done"] =
      specCodexMessages (Json.obj [("input-messages", Json.arr [Json.str "fix bug"]),
        ("last-assistant-message", Json.str "done")]) ∧
      [Msg.mk "user" "fix bug", Msg.mk "assistant" "done"] ≠ []) :=
  ⟨by rfl, codex_extract_spec _ _ (by rfl)⟩

/-- Counterexample to C1 as stated: for the payload
`{"input-messages": ["hi"]}` (no `last-assistant-message`), the codex
extraction returns the single user message and *no* assistant-role
message at all, although the claim demands that the user messages be
followed by exactly one assistant-role message. -/
theorem codex_no_assistant_entry_cex :
    extract_conversation (Json.obj [("input-messages", Json.arr [Json.str "hi"])])
      "codex" = .ok [Msg.mk "user" "hi"] ∧
    [Msg.mk "user" "hi"].countP (fun m => m.role == "assistant") = 0 :=
  ⟨by rfl, by rfl⟩

/-! ## Claim C2: plain-text summary shows last turns, HTML shows all -/

theorem specFragTextClaude_ne (c : Json) (t : String)
    (h : specFragTextClaude c = some t) : t ≠ "" := by
  cases c with
  | obj kvs =>
    simp only [specFragTextClaude] at h
    split at h
    · split at h
      · split at h
        · rename_i hc
          simp only [Option.some.injEq] at h
          rw [← h]; exact hc
        · simp at h
      · simp at h
    · simp at h
  | null => simp [specFragTextClaude] at h
  | bool b => simp [specFragTextClaude] at h
  | num n => simp [specFragTextClaude] at h
  | str s => simp [specFragTextClaude] at h
  | arr xs => simp [specFragTextClaude] at h

theorem specMsgTextsP_ne (m : Json) (t : String) (ht : t ∈ specMsgTextsP m) : t ≠ "" := by
  cases m with
  | obj kvs =>
    simp only [specMsgTextsP, List.mem_filterMap] at ht
    obtain ⟨c, -, hc⟩ := ht
    exact specFragTextClaude_ne c t hc
  | str s =>
    simp only [specMsgTextsP] at ht
    split at ht
    · rename_i hc
      simp only [List.mem_singleton] at ht
      rw [ht]; exact hc
    · simp at ht
  | null => simp [specMsgTextsP] at ht
  | bool b => simp [specMsgTextsP] at ht
  | num n => simp [specMsgTextsP] at ht
  | arr xs => simp [specMsgTextsP] at ht

theorem specClaudeItemMsg_text_ne (it : Json) (m : Msg)
    (h : specClaudeItemMsg it = some m) : m.text ≠ "" := by
  cases it with
  | obj kvs =>
    simp only [specClaudeItemMsg] at h
    split at h
    · split at h
      · rename_i hts
        simp only [Option.some.injEq] at h
        rw [← h]
        exact joinSep_ne_empty _ _ hts (fun t ht => specMsgTextsP_ne _ t ht)
      · simp at h
    · simp at h
  | null => simp [specClaudeItemMsg] at h
  | bool b => simp [specClaudeItemMsg] at h
  | num n => simp [specClaudeItemMsg] at h
  | str s => simp [specClaudeItemMsg] at h
  | arr xs => simp [specClaudeItemMsg] at h

theorem claude_msgs_text_ne (data : Json) (msgs : List Msg)
    (he : extract_conversation data "claude-code" = .ok msgs) :
    ∀ m ∈ msgs, m.text ≠ "" := by
  intro m hm
  rw [claude_extract_spec_aux data msgs he] at hm
  simp only [specClaudeMessages, List.mem_filterMap] at hm
  obtain ⟨it, -, hit⟩ := hm
  exact specClaudeItemMsg_text_ne it m hit

theorem msgTexts_ne (msg : Json) (ts : List String) (h : msgTexts msg = .ok ts) :
    ∀ t ∈ ts, t ≠ "" := by
  intro t ht
  rw [msgTexts_spec msg ts h] at ht
  exact specMsgTextsP_ne msg t ht

theorem getLast?_cons_ne {α : Type} (a : α) (l : List α) (h : l ≠ []) :
    (a :: l).getLast? = l.getLast? := by
  cases l with
  | nil => exact absurd rfl h
  | cons b l2 => simp [List.getLast?_cons_cons]

theorem lastTextOfRole_getD (r : String) : ∀ (msgs : List Msg) (d : String),
    (lastTextOfRole r msgs).getD d = lastUpd r msgs d := by
  intro msgs
  induction msgs with
  | nil => intro d; simp [lastTextOfRole, lastUpd]
  | cons m ms ih =>
    intro d
    have hfold : lastUpd r (m :: ms) d = lastUpd r ms (if m.role == r then m.text else d) := by
      simp [lastUpd]
    rw [hfold, ← ih]
    by_cases hr : (m.role == r) = true
    · cases hfil : ms.filter (fun x => x.role == r) with
      | nil => simp [lastTextOfRole, List.filter_cons, hr, hfil]
      | cons b l =>
        simp only [lastTextOfRole, List.filter_cons, hr, if_true, hfil]
        rw [getLast?_cons_ne m (b :: l) (by simp)]
        cases hbl : (b :: l).getLast? with
        | none => simp [List.getLast?_eq_none_iff] at hbl
        | some x => simp
    · have hr2 : (m.role == r) = false := by
        cases hb : (m.role == r) with
        | false => rfl
        | true => exact absurd hb hr
      simp [lastTextOfRole, List.filter_cons, hr2]

theorem formatClaudeLoop_lasts : ∀ items lu la msgs res,
    extractClaudeItems items = .ok msgs →
    formatClaudeLoop items lu la = .ok res →
    res = (lastUpd "user" msgs lu, lastUpd "assistant" msgs la) := by
  intro items
  induction items with
  | nil =>
    intro lu la msgs res he hf
    simp only [extractClaudeItems, formatClaudeLoop, pure, Except.pure,
      Except.ok.injEq] at he hf
    simp [← he, ← hf, lastUpd]
  | cons it rest ih =>
    intro lu la msgs res he hf
    cases it with
    | obj kvs =>
      cases hm : msgTexts (objGetD kvs "message" (Json.obj [])) with
      | error e =>
        simp [formatClaudeLoop, pyGet, bind, Except.bind, hm] at hf
      | ok ts =>
        cases hrest : extractClaudeItems rest with
        | error e =>
          by_cases hc : (jEqStr (objGetD kvs "type" (Json.str "")) "human" = true ∨
              jEqStr (objGetD kvs "type" (Json.str "")) "assistant" = true) <;>
            simp [extractClaudeItems, extractClaudeItem, pyGet, bind, Except.bind,
              hm, hrest, hc, pure, Except.pure] at he
        | ok msgs2 =>
          have hiff : (joinSep "\n\n" ts ≠ "") ↔ ts ≠ [] := by
            constructor
            · intro hne hnil; rw [hnil] at hne; exact hne rfl
            · intro hne; exact joinSep_ne_empty _ _ hne (msgTexts_ne _ _ hm)
          by_cases hH : jEqStr (objGetD kvs "type" (Json.str "")) "human" = true
          · by_cases hft : joinSep "\n\n" ts ≠ ""
            · have hts : ts ≠ [] := hiff.mp hft
              simp only [extractClaudeItems, extractClaudeItem, pyGet, bind, Except.bind,
                hm, hrest, pure, Except.pure, hH, hft, hts, true_or, if_true, ite_true,
                ne_eq, not_false_eq_true, Except.ok.injEq] at he
              simp only [formatClaudeLoop, pyGet, bind, Except.bind, hm, hH, hft,
                ne_eq, not_false_eq_true, if_true, ite_true] at hf
              have hres := ih (joinSep "\n\n" ts) la msgs2 res hrest hf
              rw [← he, hres]
              simp [lastUpd]
            · have hts : ¬ (ts ≠ []) := fun hne => hft (hiff.mpr hne)
              simp only [extractClaudeItems, extractClaudeItem, pyGet, bind, Except.bind,
                hm, hrest, pure, Except.pure, hH, hft, hts, true_or, if_true, ite_false,
                if_false, Except.ok.injEq] at he
              simp only [formatClaudeLoop, pyGet, bind, Except.bind, hm, hft,
                ite_false, if_false] at hf
              have hres := ih lu la msgs2 res hrest hf
              rw [← he, hres]
              simp
          · by_cases hA : jEqStr (objGetD kvs "type" (Json.str "")) "assistant" = true
            · by_cases hft : joinSep "\n\n" ts ≠ ""
              · have hts : ts ≠ [] := hiff.mp hft
                simp only [extractClaudeItems, extractClaudeItem, pyGet, bind, Except.bind,
                  hm, hrest, pure, Except.pure, hH, hA, hft, hts, false_or, or_true,
                  if_true, ite_true, ne_eq, not_false_eq_true, Bool.false_eq_true,
                  if_false, ite_false, Except.ok.injEq] at he
                simp only [formatClaudeLoop, pyGet, bind, Except.bind, hm, hH, hA, hft,
                  ne_eq, not_false_eq_true, if_true, ite_true, Bool.false_eq_true,
                  if_false, ite_false] at hf
                have hres := ih lu (joinSep "\n\n" ts) msgs2 res hrest hf
                rw [← he, hres]
                simp [lastUpd]
              · have hts : ¬ (ts ≠ []) := fun hne => hft (hiff.mpr hne)
                simp only [extractClaudeItems, extractClaudeItem, pyGet, bind, Except.bind,
                  hm, hrest, pure, Except.pure, hH, hA, hft, hts, false_or, or_true,
                  if_true, ite_true, ite_false, if_false, Bool.false_eq_true,
                  Except.ok.injEq] at he
                simp only [formatClaudeLoop, pyGet, bind, Except.bind, hm, hft,
                  ite_false, if_false] at hf
                have hres := ih lu la msgs2 res hrest hf
                rw [← he, hres]
                simp
            · simp only [extractClaudeItems, extractClaudeItem, pyGet, bind, Except.bind,
                hm, hrest, pure, Except.pure, hH, hA, Bool.false_eq_true, or_self,
                if_false, ite_false, Except.ok.injEq] at he
              have hf2 : formatClaudeLoop rest lu la = .ok res := by
                by_cases hft : joinSep "\n\n" ts ≠ "" <;>
                  simp only [formatClaudeLoop, pyGet, bind, Except.bind, hm, hH, hA, hft,
                    ne_eq, not_false_eq_true, if_true, ite_true, Bool.false_eq_true,
                    if_false, ite_false, not_not, not_true_eq_false] at hf <;>
                  exact hf
              have hres := ih lu la msgs2 res hrest hf2
              rw [← he, hres]
              simp
    | null => simp [formatClaudeLoop, pyGet, bind, Except.bind] at hf
    | bool b => simp [formatClaudeLoop, pyGet, bind, Except.bind] at hf
    | num n => simp [formatClaudeLoop, pyGet, bind, Except.bind] at hf
    | str s => simp [formatClaudeLoop, pyGet, bind, Except.bind] at hf
    | arr xs => simp [formatClaudeLoop, pyGet, bind, Except.bind] at hf

theorem lastTextOfRole_mem (r : String) (msgs : List Msg) (t : String)
    (h : lastTextOfRole r msgs = some t) : ∃ m ∈ msgs, m.text = t := by
  simp only [lastTextOfRole] at h
  obtain ⟨m0, hm0, hmt⟩ := Option.map_eq_some'.mp h
  refine ⟨m0, ?_, hmt⟩
  exact List.mem_of_mem_filter (List.mem_of_mem_getLast? hm0)

theorem lastDisplay (msgs : List Msg) (r : String) (hne : ∀ m ∈ msgs, m.text ≠ "") :
    (if lastUpd r msgs "" ≠ "" then lastUpd r msgs "" else "(无内容)") =
      (lastTextOfRole r msgs).getD "(无内容)" := by
  rw [← lastTextOfRole_getD]
  cases hl : lastTextOfRole r msgs with
  | none => simp
  | some t =>
    have ht : t ≠ "" := by
      obtain ⟨m, hm, hmt⟩ := lastTextOfRole_mem r msgs t hl
      rw [← hmt]; exact hne m hm
    simp [ht]

theorem msgCard_ne_empty (m : Msg) : msgCard m ≠ "" := by
  intro h
  have hd : (msgCard m).data = [] := by rw [h]
  simp only [msgCard, String.data_append] at hd
  exact absurd (List.append_eq_nil.mp hd).2 (by decide)

theorem strConcat_cons_ne (x : String) (l : List String) (hx : x ≠ "") :
    strConcat (x :: l) ≠ "" := by
  intro h
  have hd : (strConcat (x :: l)).data = [] := by rw [h]
  simp only [strConcat, String.data_append] at hd
  exact hx ((string_eq_empty_iff x).mpr (List.append_eq_nil.mp hd).1)

/-- Claim C2 (corrected, amended part, claude-code source): the
plain-text body built by `format_message` depends on the conversation
only through the *final* extracted message of each role (the extractor's
last `user` text and last `assistant` text, `"(无内容)"` when a role
never occurs), while `build_email_html` renders *every* extracted
message, one card per message, in order. -/
theorem plaintext_last_turn_claude (data et : Json) (now : String) (msgs : List Msg)
    (t c sid : String)
    (he : extract_conversation data "claude-code" = .ok msgs)
    (hsid : sidSliceRender (jGetD data "session_id" (Json.str "N/A")) = .ok sid)
    (hf : format_message "claude-code" et now data = .ok (t, c)) :
    t = "Claude Code 任务完成" ∧
    c = claudeContent now (pyStr (jGetD data "cwd" (Json.str "N/A"))) sid
      ((lastTextOfRole "user" msgs).getD "(无内容)")
      ((lastTextOfRole "assistant" msgs).getD "(无内容)") ∧
    (∀ title, msgs ≠ [] →
      build_email_html now title "claude-code" data =
        .ok (emailShell (accentFor title "claude-code").1
          (accentFor title "claude-code").2.1 (accentFor title "claude-code").2.2
          (escape_html title)
          (strConcat ((metaRowsFor now data).map (fun kv => metaRowHtml kv.1 kv.2)))
          (strConcat (msgs.map msgCard)) now)) := by
  cases data with
  | obj kvs =>
    cases hi : pyIter (objGetD kvs "transcript" (Json.arr [])) with
    | error e =>
      simp [extract_conversation, pyGet, bind, Except.bind, hi] at he
    | ok items =>
      have he2 : extractClaudeItems items = .ok msgs := by
        simpa only [extract_conversation, pyGet, bind, Except.bind, hi,
          String.reduceEq, reduceIte, ite_true] using he
      cases hloop : formatClaudeLoop items "" "" with
      | error e =>
        simp [format_message, pyGet, bind, Except.bind, hi, hloop] at hf
      | ok lp =>
        have hsid2 : sidSliceRender (objGetD kvs "session_id" (Json.str "N/A")) = .ok sid := by
          simpa [jGetD] using hsid
        simp only [format_message, pyGet, bind, Except.bind, hi, hloop, hsid2,
          String.reduceEq, reduceIte, ite_true, pure, Except.pure] at hf
        cases hf
        have hlp := formatClaudeLoop_lasts items "" "" msgs lp he2 hloop
        subst hlp
        have hneTexts := claude_msgs_text_ne (Json.obj kvs) msgs he
        refine ⟨rfl, ?_, ?_⟩
        · dsimp only
          simp only [jGetD]
          rw [lastDisplay msgs "user" hneTexts, lastDisplay msgs "assistant" hneTexts]
        · intro title hmsgs
          have hch : strConcat (msgs.map msgCard) ≠ "" := by
            cases msgs with
            | nil => exact absurd rfl hmsgs
            | cons m rest =>
              simp only [List.map_cons]
              exact strConcat_cons_ne _ _ (msgCard_ne_empty m)
          simp [build_email_html, isObjJ, he, bind, Except.bind, pure, Except.pure, hch]
  | null => simp [extract_conversation, pyGet, bind, Except.bind] at he
  | bool b => simp [extract_conversation, pyGet, bind, Except.bind] at he
  | num n => simp [extract_conversation, pyGet, bind, Except.bind] at he
  | str s => simp [extract_conversation, pyGet, bind, Except.bind] at he
  | arr xs => simp [extract_conversation, pyGet, bind, Except.bind] at he

/-- Counterexample to C2 as stated: for the recognized source `codex`
with payload `{"input-messages": ["first", "second"],
"last-assistant-message": "done"}`, the extractor yields two user turns
whose final one is `"second"`, yet the plain-text summary joins *all*
input messages — its body contains the non-final user turn `"first"`,
so it does not contain only the final turn of each role. -/
theorem plaintext_codex_all_user_turns_cex :
    extract_conversation (Json.obj [("input-messages",
        Json.arr [Json.str "first", Json.str "second"]),
        ("last-assistant-message", Json.str "done")]) "codex" =
      .ok [Msg.mk "user" "first", Msg.mk "user" "second", Msg.mk "assistant" "done"] ∧
    format_message "codex" (Json.str "agent-turn-complete") "T"
      (Json.obj [("input-messages", Json.arr [Json.str "first", Json.str "second"]),
        ("last-assistant-message", Json.str "done")]) =
      .ok ("Codex 任务完成",
        codexContent "T" "N/A" "agent-turn-complete" "first\nsecond" "done") ∧
    containsSub (codexContent "T" "N/A" "agent-turn-complete" "first\nsecond" "done")
      "first" = true ∧
    lastTextOfRole "user"
      [Msg.mk "user" "first", Msg.mk "user" "second", Msg.mk "assistant" "done"] =
      some "second" :=
  ⟨by rfl, by rfl, by rfl, by rfl⟩

/-- Witness for C2 (amended) at a concrete two-turn claude payload. -/
theorem plaintext_last_turn_claude_witness :
    ("Claude Code 任务完成" : String) = "Claude Code 任务完成" ∧
    claudeContent "T" "/w" "s1" "hi" "ok" =
      claudeContent "T"
        (pyStr (jGetD (Json.obj [("transcript", Json.arr
          [Json.obj [("type", Json.str "human"), ("message", Json.str "hi")],
           Json.obj [("type", Json.str "assistant"), ("message", Json.str "ok")]]),
          ("cwd", Json.str "/w"), ("session_id", Json.str "s1")]) "cwd" (Json.str "N/A")))
        "s1"
        ((lastTextOfRole "user" [Msg.mk "user" "hi", Msg.mk "assistant" "ok"]).getD "(无内容)")
        ((lastTextOfRole "assistant"
          [Msg.mk "user" "hi", Msg.mk "assistant" "ok"]).getD "(无内容)") ∧
    build_email_html "T" "Claude Code 任务完成" "claude-code"
      (Json.obj [("transcript", Json.arr
        [Json.obj [("type", Json.str "human"), ("message", Json.str "hi")],
         Json.obj [("type", Json.str "assistant"), ("message", Json.str "ok")]]),
        ("cwd", Json.str "/w"), ("session_id", Json.str "s1")]) =
      .ok (emailShell (accentFor "Claude Code 任务完成" "claude-code").1
        (accentFor "Claude Code 任务完成" "claude-code").2.1
        (accentFor "Claude Code 任务完成" "claude-code").2.2
        (escape_html "Claude Code 任务完成")
        (strConcat ((metaRowsFor "T" (Json.obj [("transcript", Json.arr
          [Json.obj [("type", Json.str "human"), ("message", Json.str "hi")],
           Json.obj [("type", Json.str "assistant"), ("message", Json.str "ok")]]),
          ("cwd", Json.str "/w"), ("session_id", Json.str "s1")])).map
          (fun kv => metaRowHtml kv.1 kv.2)))
        (strConcat ([Msg.mk "user" "hi", Msg.mk "assistant" "ok"].map msgCard)) "T") := by
  have H := plaintext_last_turn_claude
    (Json.obj [("transcript", Json.arr
      [Json.obj [("type", Json.str "human"), ("message", Json.str "hi")],
       Json.obj [("type", Json.str "assistant"), ("message", Json.str "ok")]]),
      ("cwd", Json.str "/w"), ("session_id", Json.str "s1")])
    (Json.str "stop") "T" [Msg.mk "user" "hi", Msg.mk "assistant" "ok"]
    "Claude Code 任务完成" (claudeContent "T" "/w" "s1" "hi" "ok") "s1"
    (by rfl) (by rfl) (by rfl)
  exact ⟨H.1, H.2.1, H.2.2 "Claude Code 任务完成" (by decide)⟩

/-! ## Claim C7: missing email settings mean immediate false -/

/-- Claim C7 (confirmed): whenever one of the five required settings
resolves to the empty string, `send_email` returns `False` right away —
no exception can escape (not even a bad `SMTP_PORT` or a payload the
HTML builder would choke on), and the result does not depend on the
SMTP session outcome `smtp`, i.e. no connection is attempted. -/
theorem send_email_missing_settings_false (osEnv : String → Option String)
    (now : String) (env : List (String × String)) (title content source : String)
    (data : Option Json) (smtp : Except String Unit)
    (h : emailSettingsPresent osEnv env = false) :
    send_email osEnv now env title content source data smtp = .ok false := by
  simp [send_email, h, pure, Except.pure]

/-- Witness for C7: config with only `SMTP_HOST` set. -/
theorem send_email_missing_settings_false_witness :
    emailSettingsPresent (fun _ => none) [("SMTP_HOST", "h")] = false ∧
    send_email (fun _ => none) "T" [("SMTP_HOST", "h")] "t" "c" "codex"
      (some (Json.obj [])) (.ok ()) = .ok false :=
  ⟨by rfl, send_email_missing_settings_false _ _ _ _ _ _ _ _ (by rfl)⟩

/-! ## Claim C3: send_email and exception propagation -/

/-- Claim C3 (corrected, amended part): with the five required settings
present, a parseable `SMTP_PORT` and a payload on which the HTML builder
returns, every outcome of the SMTP session (the whole `try` block:
connect or connect+starttls, login, sendmail, quit) is caught —
`send_email` returns `.ok` of the session outcome (`True` on success,
`False` on any session exception) and never propagates it. -/
theorem send_email_catches_smtp_errors (osEnv : String → Option String)
    (now : String) (env : List (String × String)) (title content source : String)
    (data : Option Json) (smtp : Except String Unit)
    (h1 : emailSettingsPresent osEnv env = true)
    (h2 : raisesB (pyIntE (get_config osEnv env "SMTP_PORT" "465")) = false)
    (h3 : raisesB (build_email_html now title source (pyOrDefault data)) = false) :
    send_email osEnv now env title content source data smtp =
      .ok (smtpOutcomeBool smtp) := by
  cases hp : pyIntE (get_config osEnv env "SMTP_PORT" "465") with
  | error e => simp [raisesB, hp] at h2
  | ok n =>
    cases hb : build_email_html now title source (pyOrDefault data) with
    | error e => simp [raisesB, hb] at h3
    | ok html =>
      simp [send_email, h1, hp, hb, bind, Except.bind, pure, Except.pure]

/-- Witness for C3 (amended): complete settings, default port, a failing
SMTP session — caught and returned as `False`. -/
theorem send_email_catches_smtp_errors_witness :
    emailSettingsPresent (fun _ => none)
      [("SMTP_HOST", "h"), ("SMTP_USER", "u"), ("SMTP_PASSWORD", "p"),
       ("EMAIL_FROM", "f"), ("EMAIL_TO", "a@b")] = true ∧
    raisesB (pyIntE (get_config (fun _ => none)
      [("SMTP_HOST", "h"), ("SMTP_USER", "u"), ("SMTP_PASSWORD", "p"),
       ("EMAIL_FROM", "f"), ("EMAIL_TO", "a@b")] "SMTP_PORT" "465")) = false ∧
    raisesB (build_email_html "T" "ttl" "codex" (pyOrDefault none)) = false ∧
    send_email (fun _ => none) "T"
      [("SMTP_HOST", "h"), ("SMTP_USER", "u"), ("SMTP_PASSWORD", "p"),
       ("EMAIL_FROM", "f"), ("EMAIL_TO", "a@b")] "ttl" "c" "codex" none
      (.error "connection refused") = .ok (smtpOutcomeBool (.error "connection refused")) :=
  ⟨by rfl, by rfl, by rfl,
    send_email_catches_smtp_errors _ _ _ _ _ _ _ _ (by rfl) (by rfl) (by rfl)⟩

/-- Counterexample to C3 as stated: with the five settings present
(the guard passes) and a *successful* SMTP session, a non-numeric
`SMTP_PORT` makes `send_email` raise `ValueError` out of the function
(the `int(...)` call of line 431 sits outside the `try` block), instead
of surfacing as the boolean `False`. -/
theorem send_email_port_exception_cex :
    emailSettingsPresent (fun _ => none)
      [("SMTP_HOST", "h"), ("SMTP_USER", "u"), ("SMTP_PASSWORD", "p"),
       ("EMAIL_FROM", "f"), ("EMAIL_TO", "a@b"), ("SMTP_PORT", "abc")] = true ∧
    raisesB (send_email (fun _ => none) "T"
      [("SMTP_HOST", "h"), ("SMTP_USER", "u"), ("SMTP_PASSWORD", "p"),
       ("EMAIL_FROM", "f"), ("EMAIL_TO", "a@b"), ("SMTP_PORT", "abc")]
      "ttl" "c" "codex" none (.ok ())) = true :=
  ⟨by rfl, by rfl⟩

/-! ## Claim C10: non-object argv JSON raises out of parse_input -/

/-- Claim C10 (confirmed): when the first command-line argument decodes
to valid JSON whose top level is not an object, `parse_input` raises
(`AttributeError` from `.get` on the non-dict) for every stdin state:
the error is not swallowed (only `json.JSONDecodeError` is), there is no
fall-through to stdin, and no empty payload is returned. -/
theorem parse_input_nonobject_raises (j : Json) (stdinJson : Option (Except Unit Json))
    (h : isObjJ j = false) :
    raisesB (parse_input (some (.ok j)) stdinJson) = true := by
  cases j with
  | obj kvs => simp [isObjJ] at h
  | null => rfl
  | bool b => rfl
  | num n => rfl
  | str s => rfl
  | arr xs => rfl

/-- Witness for C10: a JSON array argument, with piped stdin available
(which is nevertheless not consulted). -/
theorem parse_input_nonobject_raises_witness :
    isObjJ (Json.arr [Json.num 1]) = false ∧
    raisesB (parse_input (some (.ok (Json.arr [Json.num 1])))
      (some (.ok (Json.obj [])))) = true :=
  ⟨by rfl, parse_input_nonobject_raises (Json.arr [Json.num 1]) (some (.ok (Json.obj [])))
    (by rfl)⟩

/-! ## Claim C4: permissiveness of extraction and formatting -/

theorem fragText_no_raise (c : Json) (h : benignFrag c = true) :
    raisesB (fragText c) = false := by
  cases c with
  | obj kvs =>
    simp only [benignFrag] at h
    simp only [fragText]
    split
    · rename_i hty
      rw [if_pos hty] at h
      cases hv : objGetD kvs "text" (Json.str "") with
      | str s => simp [hv, pyStripJ, bind, Except.bind, pure, Except.pure, raisesB]
      | null => rw [hv] at h; simp at h
      | bool b => rw [hv] at h; simp at h
      | num n => rw [hv] at h; simp at h
      | arr xs => rw [hv] at h; simp at h
      | obj k2 => rw [hv] at h; simp at h
    · simp [pure, Except.pure, raisesB]
  | null => rfl
  | bool b => rfl
  | num n => rfl
  | str s => rfl
  | arr xs => rfl

theorem msgTextsItems_no_raise : ∀ cs, (∀ c ∈ cs, benignFrag c = true) →
    raisesB (msgTextsItems cs) = false := by
  intro cs
  induction cs with
  | nil => intro _; rfl
  | cons c cs ih =>
    intro h
    cases hf : fragText c with
    | error e =>
      have := fragText_no_raise c (h c (by simp))
      rw [hf] at this
      simp [raisesB] at this
    | ok t? =>
      cases hr : msgTextsItems cs with
      | error e =>
        have := ih (fun x hx => h x (by simp [hx]))
        rw [hr] at this
        simp [raisesB] at this
      | ok rest =>
        simp [msgTextsItems, hf, hr, bind, Except.bind, pure, Except.pure, raisesB]

theorem benignContentList_spec (j : Json) (h : benignContentList j = true) :
    raisesB (pyIter j) = false ∧ ∀ c ∈ iterElems j, benignFrag c = true := by
  cases j with
  | arr cs =>
    refine ⟨rfl, ?_⟩
    simpa [benignContentList, List.all_eq_true] using h
  | str s =>
    refine ⟨rfl, ?_⟩
    intro c hc
    simp only [iterElems, List.mem_map] at hc
    obtain ⟨ch, -, hch⟩ := hc
    rw [← hch]
    rfl
  | obj kvs =>
    refine ⟨rfl, ?_⟩
    intro c hc
    simp only [iterElems, List.mem_map] at hc
    obtain ⟨kv, -, hkv⟩ := hc
    rw [← hkv]
    rfl
  | null => simp [benignContentList] at h
  | bool b => simp [benignContentList] at h
  | num n => simp [benignContentList] at h

theorem msgTexts_no_raise (m : Json) (h : benignMsgVal m = true) :
    raisesB (msgTexts m) = false := by
  cases m with
  | obj kvs =>
    simp only [benignMsgVal] at h
    obtain ⟨hiter, hall⟩ := benignContentList_spec _ h
    cases hp : pyIter (objGetD kvs "content" (Json.arr [])) with
    | error e => rw [hp] at hiter; simp [raisesB] at hiter
    | ok cs =>
      have hcs : ∀ c ∈ cs, benignFrag c = true := by
        rw [pyIter_spec _ _ hp]; exact hall
      have := msgTextsItems_no_raise cs hcs
      simp only [msgTexts, hp, bind, Except.bind]
      exact this
  | null => rfl
  | bool b => rfl
  | num n => rfl
  | str s => simp [msgTexts, pure, Except.pure, raisesB]
  | arr xs => rfl

theorem extractClaudeItems_no_raise : ∀ items,
    (∀ it ∈ items, benignTranscriptItem it = true) →
    raisesB (extractClaudeItems items) = false := by
  intro items
  induction items with
  | nil => intro _; rfl
  | cons it rest ih =>
    intro h
    have hit := h it (by simp)
    have hrest := ih (fun x hx => h x (by simp [hx]))
    cases it with
    | obj kvs =>
      simp only [benignTranscriptItem] at hit
      cases hf : extractClaudeItem (Json.obj kvs) with
      | error e =>
        exfalso
        have hm := msgTexts_no_raise _ hit
        by_cases hc : (jEqStr (objGetD kvs "type" (Json.str "")) "human" = true ∨
            jEqStr (objGetD kvs "type" (Json.str "")) "assistant" = true)
        · cases hmt : msgTexts (objGetD kvs "message" (Json.obj [])) with
          | error e2 => rw [hmt] at hm; simp [raisesB] at hm
          | ok ts =>
            simp [extractClaudeItem, pyGet, bind, Except.bind, hc, hmt, pure,
              Except.pure] at hf
        · simp [extractClaudeItem, pyGet, bind, Except.bind, hc, pure, Except.pure] at hf
      | ok m? =>
        cases hr : extractClaudeItems rest with
        | error e => rw [hr] at hrest; simp [raisesB] at hrest
        | ok tl =>
          simp [extractClaudeItems, hf, hr, bind, Except.bind, pure, Except.pure, raisesB]
    | null => simp [benignTranscriptItem] at hit
    | bool b => simp [benignTranscriptItem] at hit
    | num n => simp [benignTranscriptItem] at hit
    | str s => simp [benignTranscriptItem] at hit
    | arr xs => simp [benignTranscriptItem] at hit

theorem formatClaudeLoop_no_raise : ∀ items,
    (∀ it ∈ items, benignTranscriptItem it = true) →
    ∀ lu la, raisesB (formatClaudeLoop items lu la) = false := by
  intro items
  induction items with
  | nil => intro _ lu la; rfl
  | cons it rest ih =>
    intro h lu la
    have hit := h it (by simp)
    have hrest := ih (fun x hx => h x (by simp [hx]))
    cases it with
    | obj kvs =>
      simp only [benignTranscriptItem] at hit
      have hm := msgTexts_no_raise _ hit
      cases hmt : msgTexts (objGetD kvs "message" (Json.obj [])) with
      | error e2 => rw [hmt] at hm; simp [raisesB] at hm
      | ok ts =>
        simp only [formatClaudeLoop, pyGet, bind, Except.bind, hmt]
        by_cases hft : joinSep "\n\n" ts ≠ "" <;>
          by_cases hH : jEqStr (objGetD kvs "type" (Json.str "")) "human" = true <;>
          by_cases hA : jEqStr (objGetD kvs "type" (Json.str "")) "assistant" = true <;>
          simp only [hft, hH, hA, if_true, if_false, ite_true, ite_false, ne_eq,
            not_false_eq_true, not_not, Bool.false_eq_true, not_true_eq_false] <;>
          exact hrest _ _
    | null => simp [benignTranscriptItem] at hit
    | bool b => simp [benignTranscriptItem] at hit
    | num n => simp [benignTranscriptItem] at hit
    | str s => simp [benignTranscriptItem] at hit
    | arr xs => simp [benignTranscriptItem] at hit

theorem codexFragText_no_raise (c : Json) (h : benignFrag c = true) :
    raisesB (codexFragText c) = false := by
  cases c with
  | obj kvs =>
    simp only [benignFrag] at h
    simp only [codexFragText]
    split
    · rename_i hty
      rw [if_pos hty] at h
      cases hv : objGetD kvs "text" (Json.str "") with
      | str s => simp [hv, pyStripJ, bind, Except.bind, pure, Except.pure, raisesB]
      | null => rw [hv] at h; simp at h
      | bool b => rw [hv] at h; simp at h
      | num n => rw [hv] at h; simp at h
      | arr xs => rw [hv] at h; simp at h
      | obj k2 => rw [hv] at h; simp at h
    · simp [pure, Except.pure, raisesB]
  | null => rfl
  | bool b => rfl
  | num n => rfl
  | str s => simp [codexFragText, pure, Except.pure, raisesB]
  | arr xs => rfl

theorem codexFragTexts_no_raise : ∀ cs, (∀ c ∈ cs, benignFrag c = true) →
    raisesB (codexFragTexts cs) = false := by
  intro cs
  induction cs with
  | nil => intro _; rfl
  | cons c cs ih =>
    intro h
    cases hf : codexFragText c with
    | error e =>
      have := codexFragText_no_raise c (h c (by simp))
      rw [hf] at this
      simp [raisesB] at this
    | ok hd =>
      cases hr : codexFragTexts cs with
      | error e =>
        have := ih (fun x hx => h x (by simp [hx]))
        rw [hr] at this
        simp [raisesB] at this
      | ok tl =>
        simp [codexFragTexts, hf, hr, bind, Except.bind, pure, Except.pure, raisesB]

theorem codexMsgText_no_raise (j : Json) (h : benignCodexItem j = true) :
    raisesB (codexMsgText j) = false := by
  cases j with
  | obj kvs =>
    simp only [benignCodexItem] at h
    simp only [codexMsgText]
    cases hv : objGetD kvs "content" (Json.str "") with
    | arr cs =>
      rw [hv] at h
      have hcs : ∀ c ∈ cs, benignFrag c = true := by
        simpa [List.all_eq_true] using h
      have := codexFragTexts_no_raise cs hcs
      cases hf : codexFragTexts cs with
      | error e => rw [hf] at this; simp [raisesB] at this
      | ok ts => simp [hf, bind, Except.bind, pure, Except.pure, raisesB]
    | str s => simp [pure, Except.pure, raisesB]
    | null => simp [pure, Except.pure, raisesB]
    | bool b => simp [pure, Except.pure, raisesB]
    | num n => simp [pure, Except.pure, raisesB]
    | obj k2 => simp [pure, Except.pure, raisesB]
  | null => rfl
  | bool b => rfl
  | num n => rfl
  | str s => simp [codexMsgText, pure, Except.pure, raisesB]
  | arr xs => rfl

theorem extractCodexItems_no_raise : ∀ items,
    (∀ it ∈ items, benignCodexItem it = true) →
    raisesB (extractCodexItems items) = false := by
  intro items
  induction items with
  | nil => intro _; rfl
  | cons it rest ih =>
    intro h
    have hit := codexMsgText_no_raise it (h it (by simp))
    have hrest := ih (fun x hx => h x (by simp [hx]))
    cases hf : codexMsgText it with
    | error e => rw [hf] at hit; simp [raisesB] at hit
    | ok t? =>
      cases hr : extractCodexItems rest with
      | error e => rw [hr] at hrest; simp [raisesB] at hrest
      | ok tl =>
        simp [extractCodexItems, hf, hr, bind, Except.bind, pure, Except.pure, raisesB]

theorem benignIterOf_spec (j : Json) (f : Json → Bool) (h : benignIterOf j f = true) :
    raisesB (pyIter j) = false ∧ ∀ x ∈ iterElems j, f x = true := by
  cases j with
  | arr xs => refine ⟨rfl, ?_⟩; simpa [benignIterOf, List.all_eq_true] using h
  | str s => refine ⟨rfl, ?_⟩; simpa [benignIterOf, List.all_eq_true] using h
  | obj kvs => refine ⟨rfl, ?_⟩; simpa [benignIterOf, List.all_eq_true] using h
  | null => simp [benignIterOf] at h
  | bool b => simp [benignIterOf] at h
  | num n => simp [benignIterOf] at h

/-- Claim C4 (corrected, amended part): on payloads of benign shape —
an object whose `transcript` entries are objects with iterable message
content, whose fragments of type `text` carry string `text` fields,
whose `input-messages` field is iterable with likewise benign entries,
and whose `session_id` is sliceable — `extract_conversation` and
`format_message` never raise, for every source; all other missing or
oddly-typed fields are handled permissively. -/
theorem benign_payload_no_raise (data : Json) (source : String) (et : Json)
    (now : String) (h : benignPayload data = true) :
    raisesB (extract_conversation data source) = false ∧
    raisesB (format_message source et now data) = false := by
  simp only [benignPayload, Bool.and_eq_true] at h
  obtain ⟨⟨⟨⟨hobj, htr⟩, him⟩, hlast⟩, hsid⟩ := h
  cases data with
  | obj kvs =>
    simp only [jGetD] at htr him hlast hsid
    obtain ⟨htrIter, htrAll⟩ := benignIterOf_spec _ _ htr
    obtain ⟨himIter, himAll⟩ := benignIterOf_spec _ _ him
    constructor
    · by_cases hs1 : source = "claude-code"
      · subst hs1
        cases hp : pyIter (objGetD kvs "transcript" (Json.arr [])) with
        | error e => rw [hp] at htrIter; simp [raisesB] at htrIter
        | ok items =>
          have hall : ∀ it ∈ items, benignTranscriptItem it = true := by
            rw [pyIter_spec _ _ hp]; exact htrAll
          have := extractClaudeItems_no_raise items hall
          simp only [extract_conversation, pyGet, bind, Except.bind, hp,
            String.reduceEq, reduceIte, ite_true]
          exact this
      · by_cases hs2 : source = "codex"
        · subst hs2
          cases hp : pyIter (objGetD kvs "input-messages" (Json.arr [])) with
          | error e => rw [hp] at himIter; simp [raisesB] at himIter
          | ok items =>
            have hall : ∀ it ∈ items, benignCodexItem it = true := by
              rw [pyIter_spec _ _ hp]; exact himAll
            have hu := extractCodexItems_no_raise items hall
            cases hue : extractCodexItems items with
            | error e => rw [hue] at hu; simp [raisesB] at hu
            | ok users =>
              have ha := codexMsgText_no_raise _ hlast
              cases hae : codexMsgText (objGetD kvs "last-assistant-message"
                  (Json.str "")) with
              | error e => rw [hae] at ha; simp [raisesB] at ha
              | ok a? =>
                simp [extract_conversation, pyGet, bind, Except.bind, hp, hue, hae,
                  pure, Except.pure, raisesB, hs1]
        · simp [extract_conversation, hs1, hs2, pure, Except.pure, raisesB]
    · by_cases hs1 : source = "claude-code"
      · subst hs1
        cases hp : pyIter (objGetD kvs "transcript" (Json.arr [])) with
        | error e => rw [hp] at htrIter; simp [raisesB] at htrIter
        | ok items =>
          have hall : ∀ it ∈ items, benignTranscriptItem it = true := by
            rw [pyIter_spec _ _ hp]; exact htrAll
          have hl := formatClaudeLoop_no_raise items hall "" ""
          cases hle : formatClaudeLoop items "" "" with
          | error e => rw [hle] at hl; simp [raisesB] at hl
          | ok lp =>
            cases hsv : objGetD kvs "session_id" (Json.str "N/A") with
            | str s =>
              simp [format_message, pyGet, bind, Except.bind, hp, hle, hsv,
                sidSliceRender, pure, Except.pure, raisesB]
            | arr xs =>
              simp [format_message, pyGet, bind, Except.bind, hp, hle, hsv,
                sidSliceRender, pure, Except.pure, raisesB]
            | null => rw [hsv] at hsid; simp [benignSessionId] at hsid
            | bool b => rw [hsv] at hsid; simp [benignSessionId] at hsid
            | num n => rw [hsv] at hsid; simp [benignSessionId] at hsid
            | obj k2 => rw [hsv] at hsid; simp [benignSessionId] at hsid
      · by_cases hs2 : source = "codex"
        · subst hs2
          cases hp : pyIter (objGetD kvs "input-messages" (Json.arr [])) with
          | error e => rw [hp] at himIter; simp [raisesB] at himIter
          | ok items =>
            simp [format_message, pyGet, bind, Except.bind, hp, pure, Except.pure,
              raisesB, hs1]
        · simp [format_message, hs1, hs2, pure, Except.pure, raisesB]
  | null => simp [isObjJ] at hobj
  | bool b => simp [isObjJ] at hobj
  | num n => simp [isObjJ] at hobj
  | str s => simp [isObjJ] at hobj
  | arr xs => simp [isObjJ] at hobj

/-- Witness for C4 (amended): a benign payload exercising both sources
and the fallback formatter. -/
theorem benign_payload_no_raise_witness :
    benignPayload (Json.obj [("transcript", Json.arr
      [Json.obj [("type", Json.str "human"), ("message", Json.str "hi")]]),
      ("session_id", Json.str "s1"), ("input-messages", Json.arr [Json.str "go"]),
      ("last-assistant-message", Json.str "done")]) = true ∧
    (raisesB (extract_conversation (Json.obj [("transcript", Json.arr
      [Json.obj [("type", Json.str "human"), ("message", Json.str "hi")]]),
      ("session_id", Json.str "s1"), ("input-messages", Json.arr [Json.str "go"]),
      ("last-assistant-message", Json.str "done")]) "claude-code") = false ∧
    raisesB (format_message "claude-code" (Json.str "stop") "T"
      (Json.obj [("transcript", Json.arr
      [Json.obj [("type", Json.str "human"), ("message", Json.str "hi")]]),
      ("session_id", Json.str "s1"), ("input-messages", Json.arr [Json.str "go"]),
      ("last-assistant-message", Json.str "done")])) = false) :=
  ⟨by rfl, benign_payload_no_raise _ "claude-code" (Json.str "stop") "T" (by rfl)⟩

/-- Counterexample to C4 as stated: `extract_conversation` raises
`AttributeError` on a payload whose transcript contains a non-object
entry (`{"transcript": [42]}`), and `format_message` raises `TypeError`
on a payload whose `session_id` is a number (`{"session_id": 5}`),
although the claim says neither function ever raises on JSON-object
payloads. -/
theorem extract_raises_nonobject_item_cex :
    raisesB (extract_conversation (Json.obj [("transcript", Json.arr [Json.num 42])])
      "claude-code") = true ∧
    raisesB (format_message "claude-code" (Json.str "stop") "T"
      (Json.obj [("session_id", Json.num 5)])) = true :=
  ⟨by rfl, by rfl⟩

/-! ## Claim C9: the dispatcher -/

theorem dictSet_lookup : ∀ (res : List (String × Bool)) (k : String) (v : Bool)
    (c : String),
    (dictSet res k v).lookup c = if c = k then some v else res.lookup c := by
  intro res k v c
  induction res with
  | nil =>
    by_cases h : c = k
    · subst h; simp [dictSet, List.lookup]
    · have hb : (c == k) = false := by simp [h]
      simp [dictSet, List.lookup, hb, h]
  | cons kv rest ih =>
    obtain ⟨k2, v2⟩ := kv
    simp only [dictSet]
    by_cases hk : k2 = k
    · subst hk
      rw [if_pos rfl]
      by_cases hc : c = k2
      · subst hc; simp [List.lookup]
      · have hb : (c == k2) = false := by simp [hc]
        simp [List.lookup, hb, hc]
    · rw [if_neg hk]
      by_cases hc : c = k2
      · subst hc
        have hck : ¬ c = k := fun hx => hk (hx ▸ rfl)
        simp [List.lookup, hck]
      · have hb : (c == k2) = false := by simp [hc]
        simp [List.lookup, hb, ih]

theorem send_notification_loop_lookup (handlers : String → Option Handler)
    (env : List (String × String)) (title content source : String)
    (data : Option Json) :
    ∀ (cs : List String) (acc : List (String × Bool)) (c : String),
    (send_notification_loop handlers env title content source data cs acc).lookup c =
      (match handlers c with
       | none => acc.lookup c
       | some h =>
           if c ∈ cs then some (runHandler (h env title content source data))
           else acc.lookup c) := by
  intro cs
  induction cs with
  | nil =>
    intro acc c
    cases hhc : handlers c <;> simp [send_notification_loop, hhc]
  | cons c0 cs ih =>
    intro acc c
    cases hh0 : handlers c0 with
    | none =>
      simp only [send_notification_loop, hh0]
      rw [ih]
      cases hhc : handlers c with
      | none => rfl
      | some h =>
        by_cases hc0 : c = c0
        · subst hc0; rw [hhc] at hh0; exact absurd hh0 (by simp)
        · simp [List.mem_cons, hc0]
    | some h0 =>
      simp only [send_notification_loop, hh0]
      rw [ih]
      cases hhc : handlers c with
      | none =>
        rw [dictSet_lookup]
        by_cases hc0 : c = c0
        · subst hc0; rw [hhc] at hh0; exact absurd hh0 (by simp)
        · simp [hc0]
      | some h =>
        by_cases hcs : c ∈ cs
        · simp [hcs]
        · rw [dictSet_lookup]
          by_cases hc0 : c = c0
          · subst hc0
            rw [hhc] at hh0
            have hh : h = h0 := by simpa using hh0
            simp [hcs, hh]
          · simp [hcs, hc0]

/-- Claim C9 (confirmed): for every handler registry, configuration and
handler behaviour, `send_notification` (a) records no entry for channel
names without a registered handler — they are skipped silently; (b) for
every enabled channel with a registered handler, records exactly the
boolean outcome of invoking that handler with
`(config, title, content, source, payload)`, where a raised exception is
caught and recorded as `False` — independent of what other handlers do,
so a failure never aborts the remaining channels; and (c) has entries
for exactly the enabled channels with registered handlers. -/
theorem dispatch_behavior (handlers : String → Option Handler)
    (osEnv : String → Option String) (env : List (String × String))
    (title content source : String) (data : Option Json) :
    (∀ c, handlers c = none →
      (send_notification_with handlers osEnv env title content source data).lookup c =
        none) ∧
    (∀ c h2, c ∈ get_enabled_channels osEnv env → handlers c = some h2 →
      (send_notification_with handlers osEnv env title content source data).lookup c =
        some (runHandler (h2 env title content source data))) ∧
    (∀ c, (send_notification_with handlers osEnv env title content source data).lookup c ≠
        none → c ∈ get_enabled_channels osEnv env ∧ handlers c ≠ none) := by
  refine ⟨?_, ?_, ?_⟩
  · intro c hc
    rw [send_notification_with, send_notification_loop_lookup, hc]
    rfl
  · intro c h2 hmem hc
    rw [send_notification_with, send_notification_loop_lookup, hc]
    simp [hmem]
  · intro c hne
    rw [send_notification_with, send_notification_loop_lookup] at hne
    cases hhc : handlers c with
    | none => rw [hhc] at hne; simp [List.lookup] at hne
    | some h =>
      rw [hhc] at hne
      by_cases hmem : c ∈ get_enabled_channels osEnv env
      · exact ⟨hmem, by simp [hhc]⟩
      · simp [hmem, List.lookup] at hne

/-- Witness for C9: channels `email,log,sms` enabled; `email`'s handler
raises (recorded `False`), `log`'s succeeds afterwards (recorded
`True`), `sms` has no registered handler (no entry). -/
theorem dispatch_behavior_witness :
    (send_notification_with
      (fun n => if n = "email" then some (fun _ _ _ _ _ => Except.error "boom")
        else if n = "log" then some (fun _ _ _ _ _ => Except.ok true) else none)
      (fun _ => none) [("NOTIFY_CHANNELS", "email,log,sms")] "t" "c" "codex"
      none).lookup "email" = some false ∧
    (send_notification_with
      (fun n => if n = "email" then some (fun _ _ _ _ _ => Except.error "boom")
        else if n = "log" then some (fun _ _ _ _ _ => Except.ok true) else none)
      (fun _ => none) [("NOTIFY_CHANNELS", "email,log,sms")] "t" "c" "codex"
      none).lookup "log" = some true ∧
    (send_notification_with
      (fun n => if n = "email" then some (fun _ _ _ _ _ => Except.error "boom")
        else if n = "log" then some (fun _ _ _ _ _ => Except.ok true) else none)
      (fun _ => none) [("NOTIFY_CHANNELS", "email,log,sms")] "t" "c" "codex"
      none).lookup "sms" = none := by
  have H := dispatch_behavior
    (fun n => if n = "email" then some (fun _ _ _ _ _ => Except.error "boom")
      else if n = "log" then some (fun _ _ _ _ _ => Except.ok true) else none)
    (fun _ => none) [("NOTIFY_CHANNELS", "email,log,sms")] "t" "c" "codex" none
  refine ⟨?_, ?_, H.1 "sms" (by rfl)⟩
  · exact H.2.1 "email" (fun _ _ _ _ _ => Except.error "boom") (by decide) (by rfl)
  · exact H.2.1 "log" (fun _ _ _ _ _ => Except.ok true) (by decide) (by rfl)

/-! ## Claim C8: exit codes of main -/

/-- Claim C8 (corrected, amended part): whenever `main` returns, it
returns `0` exactly when channels are disabled, or the parser returned
the no-payload sentinel, or the payload was dispatched and at least one
channel reported success; and it returns `1` exactly when channels are
enabled *and* a payload is present *and* either the payload is
empty/invalid (falsy) or it was dispatched and no channel reported
success (including when no enabled channel name has a registered
handler). -/
theorem main_exit_codes (osEnv : String → Option String) (env : List (String × String))
    (source : String) (et : Json) (data? : Option Json) (smtp : Except String Unit)
    (now : String) (code : Nat)
    (h : mainRun osEnv env source et data? smtp now = .ok code) :
    (code = 0 ↔ (get_enabled_channels osEnv env = [] ∨ data? = none ∨
      (∃ d t c, data? = some d ∧ pyFalsy d = false ∧
        format_message source et now d = .ok (t, c) ∧
        anySuccess (send_notification osEnv now smtp env t c source (some d)) = true))) ∧
    (code = 1 ↔ (get_enabled_channels osEnv env ≠ [] ∧
      (∃ d, data? = some d ∧ (pyFalsy d = true ∨
        (∃ t c, pyFalsy d = false ∧ format_message source et now d = .ok (t, c) ∧
          anySuccess (send_notification osEnv now smtp env t c source (some d)) =
            false))))) := by
  by_cases hch : get_enabled_channels osEnv env = []
  · simp only [mainRun, hch, if_pos rfl, if_true, ite_true, pure, Except.pure,
      Except.ok.injEq] at h
    subst h
    constructor
    · simp [hch]
    · simp [hch]
  · cases data? with
    | none =>
      simp only [mainRun, hch, if_neg hch, if_true, ite_true, if_false, ite_false,
        eq_self_iff_true, pure, Except.pure, Except.ok.injEq] at h
      subst h
      constructor
      · simp
      · simp
    | some d =>
      by_cases hfal : pyFalsy d = true
      · simp only [mainRun, if_neg hch, hfal, if_pos, ite_true, pure, Except.pure,
          Except.ok.injEq] at h
        subst h
        constructor
        · constructor
          · intro h10; exact absurd h10 (by decide)
          · rintro (h0 | h0 | ⟨d2, t, c, hd2, hfal2, -⟩)
            · exact absurd h0 hch
            · exact absurd h0 (by simp)
            · rw [Option.some.injEq] at hd2
              rw [← hd2] at hfal2
              rw [hfal] at hfal2
              exact absurd hfal2 (by decide)
        · constructor
          · intro _; exact ⟨hch, d, rfl, Or.inl hfal⟩
          · intro _; rfl
      · have hfal2 : pyFalsy d = false := by
          cases hb : pyFalsy d with
          | false => rfl
          | true => exact absurd hb hfal
        cases hfmt : format_message source et now d with
        | error e =>
          simp [mainRun, hch, hfal2, hfmt, bind, Except.bind] at h
        | ok tc =>
          obtain ⟨t0, c0⟩ := tc
          simp only [mainRun, hch, hfal2, Bool.false_eq_true, if_true, ite_true,
            if_false, ite_false, hfmt, bind, Except.bind, pure, Except.pure,
            Except.ok.injEq] at h
          subst h
          by_cases hsuc : anySuccess
              (send_notification osEnv now smtp env t0 c0 source (some d)) = true
          · rw [if_pos hsuc]
            constructor
            · constructor
              · intro _
                exact Or.inr (Or.inr ⟨d, t0, c0, rfl, hfal2, hfmt, hsuc⟩)
              · intro _; rfl
            · constructor
              · intro h01; exact absurd h01 (by decide)
              · rintro ⟨-, d2, hd2, (hf | ⟨t, c, -, hfmt2, hsuc2⟩)⟩
                · rw [Option.some.injEq] at hd2
                  rw [← hd2] at hf
                  rw [hfal2] at hf
                  exact absurd hf (by decide)
                · rw [Option.some.injEq] at hd2
                  subst hd2
                  rw [hfmt] at hfmt2
                  rw [Except.ok.injEq, Prod.mk.injEq] at hfmt2
                  obtain ⟨ht0, hc0⟩ := hfmt2
                  rw [← ht0, ← hc0] at hsuc2
                  rw [hsuc] at hsuc2
                  exact absurd hsuc2 (by decide)
          · have hsucf : anySuccess
                (send_notification osEnv now smtp env t0 c0 source (some d)) = false := by
              cases hb : anySuccess (send_notification osEnv now smtp env t0 c0 source
                  (some d)) with
              | false => rfl
              | true => exact absurd hb hsuc
            rw [if_neg hsuc]
            constructor
            · constructor
              · intro h10; exact absurd h10 (by decide)
              · rintro (h0 | h0 | ⟨d2, t, c, hd2, -, hfmt2, hsuc2⟩)
                · exact absurd h0 hch
                · exact absurd h0 (by simp)
                · rw [Option.some.injEq] at hd2
                  subst hd2
                  rw [hfmt] at hfmt2
                  rw [Except.ok.injEq, Prod.mk.injEq] at hfmt2
                  obtain ⟨ht0, hc0⟩ := hfmt2
                  rw [← ht0, ← hc0] at hsuc2
                  rw [hsucf] at hsuc2
                  exact absurd hsuc2 (by decide)
            · constructor
              · intro _
                exact ⟨hch, d, rfl, Or.inr ⟨t0, c0, hfal2, hfmt, hsucf⟩⟩
              · intro _; rfl

/-- Counterexample to C8 as stated: with no channels enabled and an
empty (falsy) payload, `main` exits `0` — but the claim's second clause
("returns 1 exactly when the input was empty/invalid or ...") demands
exit code `1` for this empty/invalid input, contradicting both the code
and the claim's own first clause. -/
theorem main_exit_code_cex :
    mainRun (fun _ => none) [] "claude-code" (Json.str "stop") (some (Json.obj []))
      (.ok ()) "T" = .ok 0 ∧
    pyFalsy (Json.obj []) = true ∧
    get_enabled_channels (fun _ => none) [] = [] :=
  ⟨by rfl, by rfl, by rfl⟩

/-- Witness for C8 (amended): email enabled but unconfigured, a valid
claude payload — the one attempted channel fails, exit code `1`. -/
theorem main_exit_codes_witness :
    ((1 : Nat) = 0 ↔ (get_enabled_channels (fun _ => none)
        [("NOTIFY_CHANNELS", "email")] = [] ∨
      (some (Json.obj [("transcript", Json.arr [])]) : Option Json) = none ∨
      (∃ d t c, (some (Json.obj [("transcript", Json.arr [])]) : Option Json) = some d ∧
        pyFalsy d = false ∧
        format_message "claude-code" (Json.str "stop") "T" d = .ok (t, c) ∧
        anySuccess (send_notification (fun _ => none) "T" (.ok ())
          [("NOTIFY_CHANNELS", "email")] t c "claude-code" (some d)) = true))) ∧
    ((1 : Nat) = 1 ↔ (get_enabled_channels (fun _ => none)
        [("NOTIFY_CHANNELS", "email")] ≠ [] ∧
      (∃ d, (some (Json.obj [("transcript", Json.arr [])]) : Option Json) = some d ∧
        (pyFalsy d = true ∨
          (∃ t c, pyFalsy d = false ∧
            format_message "claude-code" (Json.str "stop") "T" d = .ok (t, c) ∧
            anySuccess (send_notification (fun _ => none) "T" (.ok ())
              [("NOTIFY_CHANNELS", "email")] t c "claude-code" (some d)) = false))))) :=
  main_exit_codes (fun _ => none) [("NOTIFY_CHANNELS", "email")] "claude-code"
    (Json.str "stop") (some (Json.obj [("transcript", Json.arr [])])) (.ok ()) "T" 1
    (by rfl)

/-! ## Claim C6: unterminated fenced code blocks -/

theorem string_mk_data (s : String) : String.mk s.data = s := by
  cases s
  rfl

theorem splitOnCharAux_ne_nil (sep : Char) : ∀ cs, splitOnCharAux sep cs ≠ [] := by
  intro cs
  induction cs with
  | nil => simp [splitOnCharAux]
  | cons c cs ih =>
    simp only [splitOnCharAux]
    cases hr : splitOnCharAux sep cs with
    | nil => exact absurd hr ih
    | cons l ls =>
      by_cases hc : c = sep <;> simp [hc]

theorem splitOnCharAux_no_sep (sep : Char) : ∀ l, sep ∉ l →
    splitOnCharAux sep l = [l] := by
  intro l
  induction l with
  | nil => intro _; rfl
  | cons c cs ih =>
    intro h
    have hc : c ≠ sep := fun hx => h (by simp [hx])
    have hcs : sep ∉ cs := fun hx => h (by simp [hx])
    simp only [splitOnCharAux, ih hcs]
    simp [hc]

theorem splitOnCharAux_append (sep : Char) : ∀ (l : List Char), sep ∉ l → ∀ rest,
    splitOnCharAux sep (l ++ sep :: rest) = l :: splitOnCharAux sep rest := by
  intro l
  induction l with
  | nil =>
    intro _ rest
    simp only [List.nil_append, splitOnCharAux]
    cases hr : splitOnCharAux sep rest with
    | nil => exact absurd hr (splitOnCharAux_ne_nil sep rest)
    | cons x xs => simp
  | cons c cs ih =>
    intro h rest
    have hc : c ≠ sep := fun hx => h (by simp [hx])
    have hcs : sep ∉ cs := fun hx => h (by simp [hx])
    simp only [List.cons_append, splitOnCharAux, List.append_eq]
    rw [ih hcs rest]
    simp [hc]

theorem pySplitChar_joinSep : ∀ (ls : List String), ls ≠ [] →
    (∀ l ∈ ls, '\n' ∉ l.data) →
    pySplitChar '\n' (joinSep "\n" ls) = ls := by
  intro ls
  induction ls with
  | nil => intro h _; exact absurd rfl h
  | cons l rest ih =>
    intro _ hmem
    cases rest with
    | nil =>
      simp only [joinSep, pySplitChar]
      rw [splitOnCharAux_no_sep '\n' l.data (hmem l (by simp))]
      simp [string_mk_data]
    | cons l2 rest2 =>
      have hdata : (joinSep "\n" (l :: l2 :: rest2)).data =
          l.data ++ '\n' :: (joinSep "\n" (l2 :: rest2)).data := by
        show (l ++ "\n" ++ joinSep "\n" (l2 :: rest2)).data = _
        rw [String.data_append, String.data_append]
        simp
      simp only [pySplitChar, hdata]
      rw [splitOnCharAux_append '\n' l.data (hmem l (by simp))]
      simp only [List.map_cons, string_mk_data]
      have ihr := ih (by simp) (fun x hx => hmem x (by simp [hx]))
      simp only [pySplitChar] at ihr
      rw [ihr]

theorem ttlLoop_no_fence : ∀ (p : List String) (rest : List String) (cl : List String),
    (∀ l ∈ p, fenceLine l = false) →
    ttlLoop (p ++ rest) false cl = p.map renderLine ++ ttlLoop rest false cl := by
  intro p
  induction p with
  | nil => intro rest cl _; simp
  | cons l p ih =>
    intro rest cl h
    have hl := h l (by simp)
    simp only [List.cons_append, ttlLoop, hl, Bool.false_eq_true, if_false, ite_false,
      List.map_cons, List.cons_append, List.append_eq]
    rw [ih rest cl (fun x hx => h x (by simp [hx]))]

theorem ttlLoop_code_unclosed : ∀ (body : List String) (acc : List String),
    (∀ l ∈ body, fenceLine l = false) → (body ≠ [] ∨ acc ≠ []) →
    ttlLoop body true acc = [preBlock (escape_html (joinSep "\n" (acc ++ body)))] := by
  intro body
  induction body with
  | nil =>
    intro acc _ hne
    have hacc : acc ≠ [] := by
      rcases hne with h | h
      · exact absurd rfl h
      · exact h
    simp [ttlLoop, hacc]
  | cons l body ih =>
    intro acc h _
    have hl := h l (by simp)
    simp only [ttlLoop, hl, Bool.false_eq_true, if_false, ite_false]
    rw [ih (acc ++ [l]) (fun x hx => h x (by simp [hx])) (Or.inr (by simp))]
    simp

theorem escapeChar_no_lt (c : Char) : '<' ∉ escapeChar c := by
  unfold escapeChar
  split
  · decide
  · split
    · decide
    · split
      · decide
      · split
        · decide
        · rename_i h1 h2 h3 h4
          simp only [List.mem_singleton]
          exact fun hx => h2 hx.symm

theorem escape_no_lt (s : String) : '<' ∉ (escape_html s).data := by
  simp only [escape_html]
  intro hmem
  rw [List.mem_flatten] at hmem
  obtain ⟨l, hl, hin⟩ := hmem
  rw [List.mem_map] at hl
  obtain ⟨c, -, hc⟩ := hl
  rw [← hc] at hin
  exact escapeChar_no_lt c hin

theorem boldSub_head (cs : List Char) (h : '<' ∉ cs) :
    boldSub cs = [] ∨ (∃ c rest, boldSub cs = c :: rest ∧ c ≠ '<') ∨
    (∃ rest, boldSub cs = '<' :: 's' :: rest) := by
  rw [boldSub.eq_def]
  split
  · exact Or.inl rfl
  · rename_i cs2
    cases hf : findClose cs2 with
    | some p =>
      obtain ⟨inner, rest⟩ := p
      refine Or.inr (Or.inr ⟨"trong>".data ++ inner ++ "</strong>".data ++ boldSub rest, ?_⟩)
      simp
    | none =>
      exact Or.inr (Or.inl ⟨'*', boldSub ('*' :: cs2), rfl, by decide⟩)
  · rename_i c cs1 _
    refine Or.inr (Or.inl ⟨c, boldSub cs1, rfl, ?_⟩)
    intro hc
    rw [hc] at h
    exact h (by simp)

theorem not_prefix_of_head_ne {c : Char} {rest : List Char} (h : c ≠ '<') :
    ("<pre".data).isPrefixOf (c :: rest) = false := by
  have hb : ('<' == c) = false := by
    cases hx : ('<' == c) with
    | false => rfl
    | true => exact absurd (eq_of_beq hx).symm h
  show List.isPrefixOf ('<' :: 'p' :: 'r' :: 'e' :: []) (c :: rest) = false
  simp [List.isPrefixOf, hb]

theorem renderLine_not_pre (l : String) : hasPreTag (renderLine l) = false := by
  rcases boldSub_head (escape_html l).data (escape_no_lt l) with hb | ⟨c, rest, hb, hc⟩ |
    ⟨rest, hb⟩
  · simp only [renderLine, hasPreTag, hb]
    decide
  · simp only [renderLine, hasPreTag, hb]
    split
    · rw [String.data_append]
      show ("<pre".data).isPrefixOf (c :: (rest ++ "<br>".data)) = false
      exact not_prefix_of_head_ne hc
    · decide
  · simp only [renderLine, hasPreTag, hb]
    split
    · rw [String.data_append]
      show List.isPrefixOf ('<' :: 'p' :: 'r' :: 'e' :: [])
        ('<' :: 's' :: (rest ++ "<br>".data)) = false
      simp [List.isPrefixOf]
    · decide

theorem preBlock_hasPre (s : String) : hasPreTag (preBlock s) = true := by
  unfold hasPreTag preBlock
  rw [String.data_append, String.data_append, List.append_assoc]
  rw [List.isPrefixOf_iff_prefix]
  refine List.IsPrefix.trans ?_ (List.prefix_append _ _)
  rw [← List.isPrefixOf_iff_prefix]
  decide

/-- Claim C6 (corrected, amended part): an opened and never-closed fence
followed by at least one line still yields exactly one closed `<pre>`
block holding all (escaped, newline-joined) lines after the fence: the
emitted parts are the rendered non-code lines before the fence followed
by that single block, and exactly one part carries the `<pre` tag. -/
theorem unclosed_fence_single_pre (p body : List String)
    (hp : ∀ l ∈ p, fenceLine l = false ∧ '\n' ∉ l.data)
    (hb : ∀ l ∈ body, fenceLine l = false ∧ '\n' ∉ l.data)
    (hne : body ≠ []) :
    textToHtmlParts (joinSep "\n" (p ++ "```" :: body)) =
      p.map renderLine ++ [preBlock (escape_html (joinSep "\n" body))] ∧
    (textToHtmlParts (joinSep "\n" (p ++ "```" :: body))).countP hasPreTag = 1 := by
  have hsplit : pySplitChar '\n' (joinSep "\n" (p ++ "```" :: body)) =
      p ++ "```" :: body := by
    apply pySplitChar_joinSep
    · simp
    · intro l hl
      rcases List.mem_append.mp hl with h1 | h2
      · exact (hp l h1).2
      · rcases List.mem_cons.mp h2 with h3 | h4
        · rw [h3]; decide
        · exact (hb l h4).2
  have hparts : textToHtmlParts (joinSep "\n" (p ++ "```" :: body)) =
      p.map renderLine ++ [preBlock (escape_html (joinSep "\n" body))] := by
    unfold textToHtmlParts
    rw [hsplit]
    rw [ttlLoop_no_fence p ("```" :: body) [] (fun l hl => (hp l hl).1)]
    have hfence : ttlLoop ("```" :: body) false [] = ttlLoop body true [] := by
      have : fenceLine "```" = true := by decide
      simp [ttlLoop, this]
    rw [hfence, ttlLoop_code_unclosed body [] (fun l hl => (hb l hl).1) (Or.inl hne)]
    simp
  refine ⟨hparts, ?_⟩
  rw [hparts, List.countP_append]
  have h0 : (p.map renderLine).countP hasPreTag = 0 := by
    rw [List.countP_eq_zero]
    intro s hs
    rw [List.mem_map] at hs
    obtain ⟨l, -, hl⟩ := hs
    rw [← hl]
    simp [renderLine_not_pre]
  rw [h0]
  simp [List.countP_cons, preBlock_hasPre]

/-- Witness for C6 (amended) at one plain line, the fence, one code
line. -/
theorem unclosed_fence_single_pre_witness :
    ((∀ l ∈ ["x"], fenceLine l = false ∧ '\n' ∉ l.data) ∧
     (∀ l ∈ ["print(1)"], fenceLine l = false ∧ '\n' ∉ l.data) ∧
     (["print(1)"] : List String) ≠ []) ∧
    (textToHtmlParts (joinSep "\n" (["x"] ++ "```" :: ["print(1)"])) =
      ["x"].map renderLine ++ [preBlock (escape_html (joinSep "\n" ["print(1)"]))] ∧
    (textToHtmlParts (joinSep "\n" (["x"] ++ "```" :: ["print(1)"]))).countP
      hasPreTag = 1) :=
  ⟨⟨by decide, by decide, by decide⟩,
    unclosed_fence_single_pre ["x"] ["print(1)"] (by decide) (by decide) (by decide)⟩

/-- Counterexample to C6 as stated: the input `"```"` opens a fence with
zero following lines and no later closing fence, yet `_text_to_html`
emits no parts at all — the output is empty and contains no closed
`<pre>` block, although the claim demands exactly one even in the
zero-line case (the unterminated-fence handler of line 195 requires
`code_lines` to be non-empty). -/
theorem unclosed_fence_zero_lines_cex :
    text_to_html "```" = "" ∧
    (textToHtmlParts "```").countP hasPreTag = 0 :=
  ⟨by rfl, by rfl⟩

end AINotify
